import Mathlib

/-!
# pick_place: plan stage and manipulation pipeline

A shallow embedding of `pick_place::PlanStage` (src/manipulation/pick_place/src/plan_stage.cpp),
of the `pick_place::ManipulationPipeline` declared in
include/moveit/pick_place/manipulation_pipeline.h, of the
`pick_place::ApproachAndTranslateStage` declared in
include/moveit/pick_place/approach_and_translate_stage.h, and of the goal-pose handlers and
the loading of benchmark results of `MotionPlanningFrame`
(src/visualization/motion_planning_rviz_plugin/src/motion_planning_frame_queries.cpp).

Conventions of the embedding:
* objects reached through a shared pointer are passed and returned as values, and the
  pointers a stage dereferences (the plan, its approach state, the planning pipeline) are
  taken to be non-null;
* wall-clock instants and durations are whole numbers of nanoseconds (`Int`); the
  passage through seconds-as-double on line 64 of plan_stage.cpp is taken as exact;
* messages of `moveit_msgs` whose content no stage inspects are carried as
  uninterpreted data;
* every call made on the external planning pipeline is appended to a call history, so
  that "the planner was (not) invoked" is a statement about that history.
-/

namespace PickPlace

/-! ## Messages -/

/-- Status record `moveit_msgs::MoveItErrorCodes`; a default-constructed one has `val = 0`. -/
structure MoveItErrorCodes where
  val : Int := 0
deriving DecidableEq, Repr

/-- The constant `moveit_msgs::MoveItErrorCodes::SUCCESS`. -/
def MoveItErrorCodes.SUCCESS : Int := 1

/-- The constant `moveit_msgs::MoveItErrorCodes::FAILURE`. -/
def MoveItErrorCodes.FAILURE : Int := 99999

/-- A `moveit_msgs::RobotTrajectory`, carried as uninterpreted data. -/
structure RobotTrajectory where
  data : List Int := []
deriving DecidableEq, Repr

/-- A `moveit_msgs::RobotState`, carried as uninterpreted data. -/
structure RobotState where
  data : List Int := []
deriving DecidableEq, Repr

/-- A `kinematic_state::KinematicState`, carried as uninterpreted data. -/
structure KinematicState where
  data : List Int := []
deriving DecidableEq, Repr

/-- A `planning_scene::PlanningScene`, carried as uninterpreted data. -/
structure PlanningScene where
  data : List Int := []
deriving DecidableEq, Repr

/-- The goal constraints `kinematic_constraints::constructGoalConstraints` builds for the
joint state group of a state: recorded by the state and the group they were built from. -/
structure Constraints where
  state : KinematicState
  group : String
deriving DecidableEq, Repr

/-- The call `constructGoalConstraints(state->getJointStateGroup(group))` of line 66. -/
def constructGoalConstraints (state : KinematicState) (group : String) : Constraints :=
  { state := state, group := group }

/-- The fields of `moveit_msgs::MotionPlanRequest` that `PlanStage::evaluate` writes. -/
structure MotionPlanRequest where
  group_name : String := ""
  num_planning_attempts : Nat := 0
  allowed_planning_time : Int := 0
  goal_constraints : List Constraints := []
deriving DecidableEq, Repr

/-- A `moveit_msgs::MotionPlanResponse`; the defaults are those of a default-constructed one. -/
structure MotionPlanResponse where
  trajectory_start : RobotState := {}
  trajectory : RobotTrajectory := {}
  error_code : MoveItErrorCodes := {}
deriving DecidableEq, Repr

/-! ## The manipulation plan -/

/-- The members of `ManipulationPlan` that plan_stage.cpp reads or writes. -/
structure ManipulationPlan where
  planning_group_ : String
  timeout_ : Int
  approach_state_ : KinematicState
  trajectories_ : List RobotTrajectory
  trajectory_descriptions_ : List String
  trajectory_start_ : RobotState
  error_code_ : MoveItErrorCodes
deriving DecidableEq, Repr

/-! ## The external planning pipeline -/

/-- One call received by the external planning pipeline. -/
inductive PlannerCall where
  | generatePlan (scene : PlanningScene) (req : MotionPlanRequest)
  | terminate
deriving DecidableEq, Repr

/-- Modelled from the spec: the `planning_pipeline::PlanningPipeline` behind
`planning_pipeline_`, whose code is not part of the embedded sources. It is the spec's
motion-planning service (request in, status code, trajectory and start state out, with
out-of-band termination). Its behaviour is a parameter: `respond` gives, from the calls
received so far, the scene, the request and the response record handed in, the boolean
result and the response record as the planner leaves it. `calls` is the history of calls
received, oldest first. -/
structure PlanningPipeline where
  respond : List PlannerCall → PlanningScene → MotionPlanRequest → MotionPlanResponse →
    Bool × MotionPlanResponse
  calls : List PlannerCall := []

/-- The outcome of one `generatePlan` call: its boolean result, the response record after the
call, and the planning pipeline after the call. -/
structure PlannerOutcome where
  ok : Bool
  res : MotionPlanResponse
  pipeline : PlanningPipeline

/-- The call `planning_pipeline_->generatePlan(scene, req, res)`. -/
def PlanningPipeline.generatePlan (self : PlanningPipeline) (scene : PlanningScene)
    (req : MotionPlanRequest) (res : MotionPlanResponse) : PlannerOutcome :=
  let answer := self.respond self.calls scene req res
  { ok := answer.1
    res := answer.2
    pipeline := { self with calls := self.calls ++ [PlannerCall.generatePlan scene req] } }

/-- The call `planning_pipeline_->terminate()`. -/
def PlanningPipeline.terminate (self : PlanningPipeline) : PlanningPipeline :=
  { self with calls := self.calls ++ [PlannerCall.terminate] }

/-! ## PlanStage -/

/-- Modelled from the spec: the data members of the base class `ManipulationStage`
(manipulation_stage.h is not part of the embedded sources): the stable label `name_` and the
shared flag `signal_stop_` that any thread may set to request early termination. -/
structure ManipulationStage where
  name_ : String
  signal_stop_ : Bool := false
deriving DecidableEq, Repr

/-- Modelled from the spec: the base `ManipulationStage::signalStop()`, whose code is not part
of the embedded sources; per the spec it sets the flag `signal_stop_`. -/
def ManipulationStage.signalStop (self : ManipulationStage) : ManipulationStage :=
  { self with signal_stop_ := true }

/-- The stage `pick_place::PlanStage`: a `ManipulationStage` with its own `planning_scene_`
and `planning_pipeline_`. -/
structure PlanStage extends ManipulationStage where
  planning_scene_ : PlanningScene
  planning_pipeline_ : PlanningPipeline

/-- The constructor `PlanStage::PlanStage(scene, planning_pipeline)` (lines 44-50), which
initialises the base with `ManipulationStage("plan")`. -/
def PlanStage.new (scene : PlanningScene) (planning_pipeline : PlanningPipeline) : PlanStage :=
  { name_ := "plan", planning_scene_ := scene, planning_pipeline_ := planning_pipeline }

/-- The method `PlanStage::signalStop` (lines 52-56): the base `signalStop`, then `terminate`
on the planning pipeline. -/
def PlanStage.signalStop (self : PlanStage) : PlanStage :=
  let self1 : PlanStage := { self with toManipulationStage := self.toManipulationStage.signalStop }
  { self1 with planning_pipeline_ := self1.planning_pipeline_.terminate }

/-- The request built on lines 60-66 of `PlanStage::evaluate`; `now` is the reading of
`ros::WallTime::now()`. -/
def PlanStage.request (now : Int) (plan : ManipulationPlan) : MotionPlanRequest :=
  { group_name := plan.planning_group_
    num_planning_attempts := 1
    allowed_planning_time := plan.timeout_ - now
    goal_constraints := [constructGoalConstraints plan.approach_state_ plan.planning_group_] }

/-- The call `planning_pipeline_->generatePlan(planning_scene_, req, res)` of line 68, on the
request of lines 60-66 and a default-constructed response. -/
def PlanStage.plannerOutcome (self : PlanStage) (now : Int) (plan : ManipulationPlan) :
    PlannerOutcome :=
  self.planning_pipeline_.generatePlan self.planning_scene_ (PlanStage.request now plan) {}

/-- The condition of line 68, evaluated left to right with short-circuit: the planner is
called only when `signal_stop_` is unset. Yields the truth value, the response record and the
planning pipeline afterwards. -/
def PlanStage.condition (self : PlanStage) (now : Int) (plan : ManipulationPlan) :
    PlannerOutcome :=
  if self.signal_stop_ then
    { ok := false, res := {}, pipeline := self.planning_pipeline_ }
  else
    let out := self.plannerOutcome now plan
    { ok := out.ok && out.res.error_code.val == MoveItErrorCodes.SUCCESS
      res := out.res
      pipeline := out.pipeline }

/-- What one call of a stage's `evaluate` leaves behind: the returned boolean, the plan as
mutated in place, and the planning pipeline after the call. -/
structure Evaluation where
  accepted : Bool
  plan : ManipulationPlan
  planning_pipeline : PlanningPipeline

/-- The method `PlanStage::evaluate` (lines 58-79). -/
def PlanStage.evaluate (self : PlanStage) (now : Int) (plan : ManipulationPlan) : Evaluation :=
  let c := self.condition now plan
  if c.ok then
    { accepted := true
      plan := { plan with
        trajectories_ := c.res.trajectory :: plan.trajectories_
        trajectory_start_ := c.res.trajectory_start
        trajectory_descriptions_ := self.name_ :: plan.trajectory_descriptions_
        error_code_ := c.res.error_code }
      planning_pipeline := c.pipeline }
  else
    { accepted := false
      plan := { plan with error_code_ := c.res.error_code }
      planning_pipeline := c.pipeline }

/-! ## ManipulationPipeline

The header manipulation_pipeline.h declares the members and the operations of the pipeline;
its method bodies (manipulation_pipeline.cpp) are not part of the embedded sources, so the
operations below follow the contract the spec gives for them. Worker threads are modelled by
interleaving: taking a plan from the queue and processing-and-retiring it are two atomic
steps of one worker, and any sequence of steps of any workers is a schedule. -/

/-- A shared plan instance `ManipulationPlanPtr`: `addr` identifies the instance (the address
the pointer holds) and `obj` is the current content of the plan it points to. -/
structure ManipulationPlanPtr where
  addr : Nat
  obj : ManipulationPlan
deriving DecidableEq, Repr

/-- Modelled from the spec: a stage as the pipeline sees it through a `ManipulationStagePtr`
(manipulation_stage.h is not part of the embedded sources): the capability interface of the
spec, a stable `name_` and a virtual `evaluate` that examines and mutates the plan in place
and returns accept or reject. `σ` is the state of everything outside the plan that a stage
may read or write (stop flags, the clock, the external services). -/
structure ManipulationStagePtr (σ : Type) where
  name_ : String
  evaluate : σ → ManipulationPlan → Bool × ManipulationPlan × σ

/-- One invocation of a stage's `evaluate` during the processing of a plan: the position of
the stage in the chain and the boolean it returned. -/
structure StageCall where
  index : Nat
  accepted : Bool
deriving DecidableEq, Repr

/-- The result of driving one plan through the stage chain. -/
structure Processing (σ : Type) where
  accepted : Bool
  plan : ManipulationPlan
  world : σ
  invoked : List StageCall

/-- Modelled from the spec: the inner loop of `ManipulationPipeline::processingThread`, whose
body is not part of the embedded sources: "for each stage in chain order call `evaluate`;
stop as soon as a stage rejects or all stages accept". `index` is the position in the chain
of the first stage of `stages`. -/
def processStages {σ : Type} :
    List (ManipulationStagePtr σ) → Nat → σ → ManipulationPlan → Processing σ
  | [], _, world, plan => { accepted := true, plan := plan, world := world, invoked := [] }
  | stage :: rest, index, world, plan =>
    let out := stage.evaluate world plan
    if out.1 then
      let r := processStages rest (index + 1) out.2.2 out.2.1
      { r with invoked := { index := index, accepted := true } :: r.invoked }
    else
      { accepted := false, plan := out.2.1, world := out.2.2
        invoked := [{ index := index, accepted := false }] }

/-- The members of `ManipulationPipeline` (manipulation_pipeline.h, lines 86-101). Threads,
locks and the condition variable are replaced by interleaving; in their place `in_flight`
holds, for each busy worker, its index and the plan it took from the queue,
`solution_callback_calls` counts the invocations of `solution_callback_`, and `world` is the
state outside the plans that the stages read and write. -/
structure ManipulationPipeline (σ : Type) where
  name_ : String
  nthreads_ : Nat
  stages_ : List (ManipulationStagePtr σ)
  queue_ : List ManipulationPlanPtr
  success_ : List ManipulationPlanPtr
  failed_ : List ManipulationPlanPtr
  stop_processing_ : Bool
  in_flight : List (Nat × ManipulationPlanPtr)
  solution_callback_calls : Nat
  world : σ

/-- Modelled from the spec: the constructor `ManipulationPipeline(name, nthreads)`: no stage,
nothing queued, nothing retired, no worker busy. -/
def ManipulationPipeline.new {σ : Type} (name : String) (nthreads : Nat) (world : σ) :
    ManipulationPipeline σ :=
  { name_ := name, nthreads_ := nthreads, stages_ := [], queue_ := [], success_ := []
    failed_ := [], stop_processing_ := false, in_flight := [], solution_callback_calls := 0
    world := world }

/-- Modelled from the spec: `addStage(stage)` appends to the ordered chain. -/
def ManipulationPipeline.addStage {σ : Type} (self : ManipulationPipeline σ)
    (next : ManipulationStagePtr σ) : ManipulationPipeline σ :=
  { self with stages_ := self.stages_ ++ [next] }

/-- Modelled from the spec: `push(plan)` enqueues a plan for processing. -/
def ManipulationPipeline.push {σ : Type} (self : ManipulationPipeline σ)
    (grasp : ManipulationPlanPtr) : ManipulationPipeline σ :=
  { self with queue_ := self.queue_ ++ [grasp] }

/-- Modelled from the spec: `clear()` empties the pending-work queue and nothing else. -/
def ManipulationPipeline.clear {σ : Type} (self : ManipulationPipeline σ) :
    ManipulationPipeline σ :=
  { self with queue_ := [] }

/-- Modelled from the spec: `reset()` clears the stage chain, the pending queue and the
success and failure collections. -/
def ManipulationPipeline.reset {σ : Type} (self : ManipulationPipeline σ) :
    ManipulationPipeline σ :=
  { self with stages_ := [], queue_ := [], success_ := [], failed_ := [] }

/-- The plan worker `index` holds, if any, and the other busy workers. -/
def takeWorker (index : Nat) :
    List (Nat × ManipulationPlanPtr) →
      Option (ManipulationPlanPtr × List (Nat × ManipulationPlanPtr))
  | [] => none
  | entry :: rest =>
    if entry.1 = index then some (entry.2, rest)
    else
      match takeWorker index rest with
      | none => none
      | some (g, others) => some (g, entry :: others)

/-- Modelled from the spec: the first half of one turn of the loop of
`processingThread(index)`: "pop one plan". An idle worker of the pool takes the plan at the
front of the queue; with an empty queue, a busy worker or an index outside the pool nothing
happens. -/
def ManipulationPipeline.dequeue {σ : Type} (self : ManipulationPipeline σ) (index : Nat) :
    ManipulationPipeline σ :=
  match self.queue_ with
  | [] => self
  | g :: rest =>
    if index < self.nthreads_ ∧ (takeWorker index self.in_flight).isNone then
      { self with queue_ := rest, in_flight := self.in_flight ++ [(index, g)] }
    else self

/-- Modelled from the spec: the second half of one turn of the loop of
`processingThread(index)`: the worker drives the plan it holds through the chain; a rejected
plan goes to the failure collection, a plan every stage accepted goes to the success
collection and the solution callback fires. An idle worker does nothing. -/
def ManipulationPipeline.processAndRetire {σ : Type} (self : ManipulationPipeline σ)
    (index : Nat) : ManipulationPipeline σ :=
  match takeWorker index self.in_flight with
  | none => self
  | some (g, others) =>
    let r := processStages self.stages_ 0 self.world g.obj
    let done : ManipulationPlanPtr := { g with obj := r.plan }
    if r.accepted then
      { self with
        in_flight := others, world := r.world
        success_ := self.success_ ++ [done]
        solution_callback_calls := self.solution_callback_calls + 1 }
    else
      { self with
        in_flight := others, world := r.world
        failed_ := self.failed_ ++ [done] }

/-- The steps a pipeline can take: the public operations and the two steps of a worker. -/
inductive Action (σ : Type) where
  | addStage (next : ManipulationStagePtr σ)
  | push (grasp : ManipulationPlanPtr)
  | clear
  | reset
  | dequeue (index : Nat)
  | processAndRetire (index : Nat)

/-- One step of the pipeline. -/
def ManipulationPipeline.step {σ : Type} (self : ManipulationPipeline σ) :
    Action σ → ManipulationPipeline σ
  | .addStage next => self.addStage next
  | .push grasp => self.push grasp
  | .clear => self.clear
  | .reset => self.reset
  | .dequeue index => self.dequeue index
  | .processAndRetire index => self.processAndRetire index

/-- The state reached from `self` by a schedule, a sequence of steps. -/
def ManipulationPipeline.run {σ : Type} (self : ManipulationPipeline σ) :
    List (Action σ) → ManipulationPipeline σ
  | [] => self
  | a :: rest => (self.step a).run rest

/-- The instances held by a collection. -/
def addrs (plans : List ManipulationPlanPtr) : List Nat := plans.map (fun g => g.addr)

/-- The instances held by busy workers. -/
def ManipulationPipeline.inFlightAddrs {σ : Type} (self : ManipulationPipeline σ) : List Nat :=
  self.in_flight.map (fun e => e.2.addr)

/-- The number of places (queue, busy workers, success collection, failure collection) in
which the instance `a` is held. -/
def ManipulationPipeline.owners {σ : Type} (self : ManipulationPipeline σ) (a : Nat) : Nat :=
  (addrs self.queue_).count a + self.inFlightAddrs.count a +
    (addrs self.success_).count a + (addrs self.failed_).count a

/-- The at-most-one-owner property as the spec words it: no instance is in both the success
and the failure collection, and none is in the queue and in a result collection. -/
def ManipulationPipeline.AtMostOneOwner {σ : Type} (self : ManipulationPipeline σ) : Prop :=
  (∀ a, a ∈ addrs self.success_ → a ∉ addrs self.failed_) ∧
  (∀ a, a ∈ addrs self.queue_ → a ∉ addrs self.success_ ∧ a ∉ addrs self.failed_)

/-- Every `push` of the schedule hands over an instance the pipeline does not hold at that
moment (neither queued, nor with a worker, nor retired). -/
def ManipulationPipeline.freshPushes {σ : Type} (self : ManipulationPipeline σ) :
    List (Action σ) → Bool
  | [] => true
  | .push grasp :: rest =>
    self.owners grasp.addr == 0 && (self.step (.push grasp)).freshPushes rest
  | a :: rest => (self.step a).freshPushes rest

/-- The instances pushed by a schedule, in order. -/
def pushedAddrs {σ : Type} : List (Action σ) → List Nat
  | [] => []
  | .push grasp :: rest => grasp.addr :: pushedAddrs rest
  | _ :: rest => pushedAddrs rest

/-- A schedule that only pushes plans and lets workers work: no `clear`, `reset` or
`addStage`. -/
def workOnly {σ : Type} : List (Action σ) → Bool
  | [] => true
  | .push _ :: rest => workOnly rest
  | .dequeue _ :: rest => workOnly rest
  | .processAndRetire _ :: rest => workOnly rest
  | _ :: _ => false

/-- The pipeline after `addStage` has been called for each stage of `chain`, in order. -/
def ManipulationPipeline.addStages {σ : Type} (self : ManipulationPipeline σ)
    (chain : List (ManipulationStagePtr σ)) : ManipulationPipeline σ :=
  chain.foldl ManipulationPipeline.addStage self

/-- The plan instance `f` is as a rejecting stage of `chain` left it: some stage of the chain
returned false from `evaluate` and the content of `f`, its error code included, is the plan
as that call left it. -/
def RejectedBy {σ : Type} (chain : List (ManipulationStagePtr σ)) (f : ManipulationPlanPtr) :
    Prop :=
  ∃ stage ∈ chain, ∃ (w : σ) (p : ManipulationPlan),
    (stage.evaluate w p).1 = false ∧ f.obj = (stage.evaluate w p).2.1

/-- The number of places other than the success collection (queue, busy workers, failure
collection) in which the instance `a` is held. -/
def ManipulationPipeline.unfinishedOrFailed {σ : Type} (self : ManipulationPipeline σ)
    (a : Nat) : Nat :=
  (addrs self.queue_).count a + self.inFlightAddrs.count a + (addrs self.failed_).count a

/-! ## ApproachAndTranslateStage

The header approach_and_translate_stage.h declares the members of the stage and its
`evaluate`; the body of `evaluate` (approach_and_translate_stage.cpp) is not part of the
embedded sources, so the algorithm below follows the contract the spec gives for it. -/

/-- The constant `moveit_msgs::MoveItErrorCodes::PLANNING_FAILED`. -/
def MoveItErrorCodes.PLANNING_FAILED : Int := -1

/-- The constant `moveit_msgs::MoveItErrorCodes::PREEMPTED`. -/
def MoveItErrorCodes.PREEMPTED : Int := -7

/-- A `collision_detection::AllowedCollisionMatrix`, carried as uninterpreted data. -/
structure AllowedCollisionMatrix where
  data : List Int := []
deriving DecidableEq, Repr

/-- The members of `ApproachAndTranslateStage` (approach_and_translate_stage.h, lines 59-66),
on top of those of `ManipulationStage`. The member `time_param_` is the time-parameterization
service of `ApproachServices`. -/
structure ApproachAndTranslateStage extends ManipulationStage where
  pre_grasp_planning_scene_ : PlanningScene
  post_grasp_planning_scene_ : PlanningScene
  collision_matrix_ : AllowedCollisionMatrix
  max_goal_count_ : Nat
  max_fail_ : Nat
  max_step_ : Float

/-- Modelled from the spec: the external services the stage calls, whose code is not part of
the embedded sources. `solve a` is the answer of the inverse-kinematics service to the
request number `a` of one evaluation (a feasible configuration or failure), `collision_free`
is the collision verdict for a configuration in the planning scene at hand under the
allowed-collision matrix, and `time_parameterize` turns the accepted waypoints into a timed
trajectory. -/
structure ApproachServices where
  solve : Nat → Option KinematicState
  collision_free : KinematicState → Bool
  time_parameterize : List KinematicState → RobotTrajectory

/-- Modelled from the spec: the straight-line Cartesian path handed to one evaluation, cut
into `increments` steps no longer than `max_step_`, and the stopping criterion the caller
configures: the full path length, or `max_goal_count_` accepted waypoints. -/
structure ApproachTask where
  increments : Nat
  stop_at_goal_count : Bool := false
deriving DecidableEq, Repr

/-- How the interpolation of one evaluation ends. -/
inductive InterpolationOutcome where
  | accepted
  | rejected
  | cancelled
deriving DecidableEq, Repr

/-- The result of the interpolation: how it ended, the waypoints accepted so far and the
number of inverse-kinematics requests made. -/
structure Interpolation where
  outcome : InterpolationOutcome
  waypoints : List KinematicState
  attempts : Nat
deriving DecidableEq, Repr

/-- Modelled from the spec: one interpolation step of `ApproachAndTranslateStage::evaluate`,
whose body is not part of the embedded sources. The step solves inverse kinematics and
collision-checks the result; a failure of either counts toward `max_fail_`, and `tolerance`
is the number of consecutive failures still tolerated before giving up. The spec's scenario
fixes the count: with `max_fail_ = 3` the plan is rejected once 3 consecutive failures have
occurred. Yields the configuration found, if any, and the number of the next request. -/
def attemptStep (services : ApproachServices) : Nat → Nat → Option KinematicState × Nat
  | 0, attempt => (none, attempt)
  | tolerance + 1, attempt =>
    match services.solve attempt with
    | some state =>
      if services.collision_free state then (some state, attempt + 1)
      else attemptStep services tolerance (attempt + 1)
    | none => attemptStep services tolerance (attempt + 1)

/-- Modelled from the spec: the interpolation loop of `ApproachAndTranslateStage::evaluate`,
whose body is not part of the embedded sources: step along the path; check `signal_stop_` at
each step; a step that exhausts the tolerated consecutive failures rejects the plan; reaching
the full path length, or `max_goal_count_` accepted waypoints when that is the stopping
criterion, accepts the segment. -/
def ApproachAndTranslateStage.interpolate (self : ApproachAndTranslateStage)
    (services : ApproachServices) (stop_at_goal_count : Bool) :
    Nat → Nat → List KinematicState → Interpolation
  | 0, attempt, waypoints =>
    { outcome := .accepted, waypoints := waypoints, attempts := attempt }
  | remaining + 1, attempt, waypoints =>
    if self.signal_stop_ then
      { outcome := .cancelled, waypoints := waypoints, attempts := attempt }
    else
      match attemptStep services self.max_fail_ attempt with
      | (some state, next) =>
        if stop_at_goal_count && decide (self.max_goal_count_ ≤ (waypoints ++ [state]).length)
        then { outcome := .accepted, waypoints := waypoints ++ [state], attempts := next }
        else self.interpolate services stop_at_goal_count remaining next (waypoints ++ [state])
      | (none, next) => { outcome := .rejected, waypoints := waypoints, attempts := next }

/-- What one call of `ApproachAndTranslateStage::evaluate` leaves behind: the returned boolean,
the plan as mutated in place, and the number of inverse-kinematics requests made. -/
structure ApproachEvaluation where
  accepted : Bool
  plan : ManipulationPlan
  attempts : Nat
deriving DecidableEq, Repr

/-- Modelled from the spec: `ApproachAndTranslateStage::evaluate`, whose body is not part of
the embedded sources. On acceptance the timed trajectory and the stage name are prepended to
the plan as `PlanStage` does and true is returned; on rejection the trajectories are left
untouched, an explanatory error code is set (PLANNING_FAILED for infeasibility, PREEMPTED for
cancellation) and false is returned. -/
def ApproachAndTranslateStage.evaluate (self : ApproachAndTranslateStage)
    (services : ApproachServices) (task : ApproachTask) (plan : ManipulationPlan) :
    ApproachEvaluation :=
  let r := self.interpolate services task.stop_at_goal_count task.increments 0 []
  match r.outcome with
  | .accepted =>
    { accepted := true
      plan := { plan with
        trajectories_ := services.time_parameterize r.waypoints :: plan.trajectories_
        trajectory_descriptions_ := self.name_ :: plan.trajectory_descriptions_
        error_code_ := { val := MoveItErrorCodes.SUCCESS } }
      attempts := r.attempts }
  | .rejected =>
    { accepted := false
      plan := { plan with error_code_ := { val := MoveItErrorCodes.PLANNING_FAILED } }
      attempts := r.attempts }
  | .cancelled =>
    { accepted := false
      plan := { plan with error_code_ := { val := MoveItErrorCodes.PREEMPTED } }
      attempts := r.attempts }

/-! ## Benchmark log names

The part of `MotionPlanningFrame::computeLoadBenchmarkResults`
(src/visualization/motion_planning_rviz_plugin/src/motion_planning_frame_queries.cpp, lines
844-868) that splits the selected path and builds the candidate file names. A `std::string`
is a list of characters; positions and lengths are `size_t` values, with arithmetic modulo
2^64 and `npos` the largest of them. -/

/-- The constant `std::string::npos`. -/
def npos : Nat := 18446744073709551615

/-- Subtraction of two `size_t` values. -/
def sizeSub (a b : Nat) : Nat := (a + 18446744073709551616 - b) % 18446744073709551616

/-- Addition of two `size_t` values. -/
def sizeAdd (a b : Nat) : Nat := (a + b) % 18446744073709551616

/-- The last position of `c` in `s`, positions counted from `i`. -/
def lastIndex (c : Char) : List Char → Nat → Option Nat
  | [], _ => none
  | x :: xs, i =>
    match lastIndex c xs (i + 1) with
    | some j => some j
    | none => if x = c then some i else none

/-- The first position of `c` in `s`, positions counted from `i`. -/
def firstIndex (c : Char) : List Char → Nat → Option Nat
  | [], _ => none
  | x :: xs, i => if x = c then some i else firstIndex c xs (i + 1)

/-- The call `s.find_last_of(c, pos)` for a one-character set: the last position at or before
`pos` that holds `c`, or `npos`. -/
def find_last_of (s : List Char) (c : Char) (pos : Nat) : Nat :=
  (lastIndex c (s.take (pos + 1)) 0).getD npos

/-- The call `s.find_first_of(c)` for a one-character set: the first position that holds `c`,
or `npos`. -/
def find_first_of (s : List Char) (c : Char) : Nat :=
  (firstIndex c s 0).getD npos

/-- The call `s.substr(pos, n)`: it throws (`none`) when `pos` is beyond the end of `s`, and
otherwise yields at most `n` characters from `pos` on. -/
def substr (s : List Char) (pos n : Nat) : Option (List Char) :=
  if s.length < pos then none else some ((s.drop pos).take n)

/-- The three strings of lines 846-851. -/
structure LogNameParts where
  logid : List Char
  basename : List Char
  logid_text : List Char
deriving DecidableEq, Repr

/-- The `try` block of `computeLoadBenchmarkResults` (lines 847-858): `none` when one of the
`substr` calls throws, in which case the function reports an invalid log file and returns. -/
def logNameParts (file : List Char) : Option LogNameParts :=
  let dot := find_last_of file '.' (sizeSub file.length 5)
  match substr file (sizeAdd dot 1) (sizeSub (sizeSub (find_last_of file '.' npos) dot) 1) with
  | none => none
  | some logid =>
    match substr file 0 dot with
    | none => none
    | some basename =>
      match substr logid (find_first_of logid '_')
          (sizeSub logid.length (find_first_of logid '_')) with
      | none => none
      | some logid_text => some { logid := logid, basename := basename, logid_text := logid_text }

/-- What `operator<<` writes for an integer: its decimal digits, after a minus sign when it is
negative. -/
def formatInt (count : Int) : List Char :=
  if count < 0 then '-' :: Nat.toDigits 10 count.natAbs else Nat.toDigits 10 count.natAbs

/-- The name built on line 866: `basename << "." << count << logid_text << ".log"`. -/
def file_to_load (basename : List Char) (count : Int) (logid_text : List Char) : List Char :=
  basename ++ ['.'] ++ formatInt count ++ logid_text ++ ['.', 'l', 'o', 'g']

/-- A path of the form B.N_T.log, where N is the decimal representation of `n`. -/
def logPath (B : List Char) (n : Nat) (T : List Char) : List Char :=
  B ++ ['.'] ++ Nat.toDigits 10 n ++ ['_'] ++ T ++ ['.', 'l', 'o', 'g']

/-! ## Goal poses of the motion planning frame

The goal-pose handlers of `MotionPlanningFrame` in motion_planning_frame_queries.cpp. The
frame is reduced to the two members these handlers change, the map `goal_poses_` and the
database handle `constraints_storage_`; what they read from the display, the dialogs and the
list widget is passed in. A `std::string` is a list of characters and a `QString` converts
to it unchanged. The map is an association list; none of the handlers embedded here iterates
over it, so the order of its entries plays no part. Refreshing the list widget
(`populateGoalPosesList`) and the Qt signal connections are left out: they change neither
the map nor the database. -/

/-- The enumeration `GripperMarker::GripperMarkerState`. -/
inductive GripperMarkerState where
  | NOT_TESTED
  | PROCESSING
  | REACHABLE
  | NOT_REACHABLE
  | IN_COLLISION
deriving DecidableEq, Repr

/-- A `geometry_msgs::Pose`, carried as uninterpreted data. -/
structure Pose where
  data : List Int := []
deriving DecidableEq, Repr

/-- What the handlers read or write of a `GripperMarker`, whose class (declared in
motion_planning_frame.h) is not part of the embedded sources: the pose of its interactive
marker, its state, and what `isSelected()` and `isVisible()` return. The default is the
default-constructed marker that `goal_poses_[name]` creates for a missing name. -/
structure GripperMarker where
  pose : Pose := {}
  state : GripperMarkerState := .NOT_TESTED
  selected : Bool := false
  visible : Bool := false
deriving DecidableEq, Repr

/-- The type `GoalPoseMap`, a `std::map<std::string, GripperMarker>`. -/
abbrev GoalPoseMap := List (List Char × GripperMarker)

/-- The call `goal_poses_.find(name)`: the marker stored under `name`, or `none` for
`goal_poses_.end()`. -/
def GoalPoseMap.find : GoalPoseMap → List Char → Option GripperMarker
  | [], _ => none
  | entry :: rest, name => if entry.1 = name then some entry.2 else GoalPoseMap.find rest name

/-- The call `goal_poses_.size()`. -/
def GoalPoseMap.size (self : GoalPoseMap) : Nat := self.length

/-- The call `goal_poses_.insert(GoalPosePair(name, marker))`: a `std::map` keeps the entry
it already has under `name`, if any. -/
def GoalPoseMap.insert (self : GoalPoseMap) (name : List Char) (marker : GripperMarker) :
    GoalPoseMap :=
  match self.find name with
  | some _ => self
  | none => self ++ [(name, marker)]

/-- The call `goal_poses_.erase(name)`. -/
def GoalPoseMap.erase (self : GoalPoseMap) (name : List Char) : GoalPoseMap :=
  self.filter (fun entry => decide (entry.1 ≠ name))

/-- The access `goal_poses_[name]`: it creates a default-constructed marker under a missing
name. Yields the map afterwards and the marker accessed. -/
def GoalPoseMap.at (self : GoalPoseMap) (name : List Char) : GoalPoseMap × GripperMarker :=
  match self.find name with
  | some marker => (self, marker)
  | none => (self ++ [(name, {})], {})

/-- An assignment through `goal_poses_[name]` to an entry that exists: `change` is applied to
the marker stored under `name`. -/
def GoalPoseMap.modify (self : GoalPoseMap) (name : List Char)
    (change : GripperMarker → GripperMarker) : GoalPoseMap :=
  self.map (fun entry => if entry.1 = name then (entry.1, change entry.2) else entry)

/-- The fields of `moveit_msgs::Constraints` that the handlers fill from a goal pose: the
name, and the position and orientation taken from the marker. -/
structure ConstraintsMsg where
  name : List Char
  pose : Pose
deriving DecidableEq, Repr

/-- One call received by the constraints storage. -/
inductive StorageCall where
  | addConstraints (c : ConstraintsMsg)
  | removeConstraints (name : List Char)
deriving DecidableEq, Repr

/-- The `moveit_warehouse::ConstraintsStorage` behind `constraints_storage_`, an external
database: the history of the calls it received, oldest first. An exception it throws is caught
and logged by the handlers and changes nothing else. -/
structure ConstraintsStorage where
  calls : List StorageCall := []
deriving DecidableEq, Repr

/-- The members of `MotionPlanningFrame` that the goal-pose handlers change;
`constraints_storage_` is `none` when no database is connected. -/
structure MotionPlanningFrame where
  goal_poses_ : GoalPoseMap
  constraints_storage_ : Option ConstraintsStorage
deriving DecidableEq, Repr

/-- What the handlers read from `planning_display_`: the name of the planning scene (`none`
when `getPlanningSceneRO()` yields no scene), the active end effectors of the robot
interaction, and the pose of the parent link of the first of them in the query goal state. -/
structure PlanningDisplay where
  scene_name : Option (List Char)
  active_end_effectors : List (List Char)
  tip_pose : Pose := {}
deriving DecidableEq, Repr

/-- What `<< std::setfill('0') << std::setw(4) << n` writes: the decimal digits of `n`, padded
on the left with zeros to four characters. -/
def pad4 (n : Nat) : List Char :=
  List.replicate (4 - (Nat.toDigits 10 n).length) '0' ++ Nat.toDigits 10 n

/-- The name proposed for a new goal pose (lines 64 and 720): scene name, "_pose_", and the
size of the map on four digits. -/
def poseName (scene : List Char) (size : Nat) : List Char :=
  scene ++ ['_', 'p', 'o', 's', 'e', '_'] ++ pad4 size

/-- What `createGoalPoseButtonClicked` leaves behind: the frame, and the text proposed in the
name dialog, `none` when the dialog was not shown. -/
structure CreateGoalPose where
  frame : MotionPlanningFrame
  asked : Option (List Char)
deriving DecidableEq, Repr

/-- The handler `MotionPlanningFrame::createGoalPoseButtonClicked` (lines 55-146). `getText`
is the answer of the name dialog to the proposed text: whether it was accepted, and the text
entered. -/
def MotionPlanningFrame.createGoalPoseButtonClicked (self : MotionPlanningFrame)
    (display : PlanningDisplay) (getText : List Char → Bool × List Char) : CreateGoalPose :=
  match display.scene_name with
  | none => { frame := self, asked := none }
  | some scene =>
    if display.active_end_effectors = [] then { frame := self, asked := none }
    else
      let proposed := poseName scene self.goal_poses_.size
      let answer := getText proposed
      if answer.1 then
        if answer.2 ≠ [] then
          let name := answer.2
          if (self.goal_poses_.find name).isSome then { frame := self, asked := some proposed }
          else
            let goal_pose : GripperMarker :=
              { pose := display.tip_pose, state := .NOT_TESTED, selected := false, visible := true }
            { frame :=
                { goal_poses_ := self.goal_poses_.insert name goal_pose
                  constraints_storage_ := self.constraints_storage_.map (fun storage =>
                    { storage with calls := storage.calls ++
                        [StorageCall.addConstraints { name := name, pose := goal_pose.pose }] }) }
              asked := some proposed }
        else { frame := self, asked := some proposed }
      else { frame := self, asked := some proposed }

/-- The handler `MotionPlanningFrame::removeSelectedGoalsButtonClicked` (lines 148-156);
`selected` holds the texts of the selected items of the goal list. -/
def MotionPlanningFrame.removeSelectedGoalsButtonClicked (self : MotionPlanningFrame)
    (selected : List (List Char)) : MotionPlanningFrame :=
  { self with goal_poses_ := selected.foldl GoalPoseMap.erase self.goal_poses_ }

/-- The button a `QMessageBox` with Yes, No and Cancel returns. -/
inductive StandardButton where
  | Yes
  | No
  | Cancel
deriving DecidableEq, Repr

/-- The handler `MotionPlanningFrame::deleteGoalsOnDBButtonClicked` (lines 279-313). `answer`
is the button the confirmation box returns; the box is shown only when a database is
connected. -/
def MotionPlanningFrame.deleteGoalsOnDBButtonClicked (self : MotionPlanningFrame)
    (answer : StandardButton) (selected : List (List Char)) : MotionPlanningFrame :=
  let asked : MotionPlanningFrame :=
    match self.constraints_storage_ with
    | some storage =>
      match answer with
      | .Yes =>
        { self with constraints_storage_ := some { storage with
            calls := storage.calls ++ selected.map StorageCall.removeConstraints } }
      | _ => self
    | none => self
  asked.removeSelectedGoalsButtonClicked selected

/-- The method `MotionPlanningFrame::switchGoalPoseMarkerSelection` (lines 673-696), as far as
the map goes: without an active end effector or for a hidden marker nothing happens;
otherwise a selected marker is unselected and an unselected one selected. -/
def MotionPlanningFrame.switchGoalPoseMarkerSelection (self : MotionPlanningFrame)
    (display : PlanningDisplay) (marker_name : List Char) : MotionPlanningFrame :=
  if display.active_end_effectors = [] then self
  else
    let looked := self.goal_poses_.at marker_name
    if !looked.2.visible then { self with goal_poses_ := looked.1 }
    else
      let switched := GoalPoseMap.modify looked.1 marker_name
        (fun marker => { marker with selected := !marker.selected })
      { self with goal_poses_ := switched }

/-- One turn of the loop of `copySelectedGoalPoses` (lines 713-743) for the selected item
`name`. -/
def MotionPlanningFrame.copyGoalPose (display : PlanningDisplay) (scene_name : List Char)
    (self : MotionPlanningFrame) (name : List Char) : MotionPlanningFrame :=
  let looked := self.goal_poses_.at name
  if !looked.2.visible then { self with goal_poses_ := looked.1 }
  else
    let goal_pose : GripperMarker :=
      { pose := looked.2.pose, state := .NOT_TESTED, selected := true, visible := true }
    let inserted : MotionPlanningFrame :=
      { self with goal_poses_ :=
          GoalPoseMap.insert looked.1 (poseName scene_name (GoalPoseMap.size looked.1)) goal_pose }
    inserted.switchGoalPoseMarkerSelection display name

/-- The method `MotionPlanningFrame::copySelectedGoalPoses` (lines 698-746); `sel` holds the
texts of the selected items of the goal list. -/
def MotionPlanningFrame.copySelectedGoalPoses (self : MotionPlanningFrame)
    (display : PlanningDisplay) (sel : List (List Char)) : MotionPlanningFrame :=
  if sel = [] || display.active_end_effectors = [] then self
  else
    match display.scene_name with
    | none => self
    | some scene_name => sel.foldl (MotionPlanningFrame.copyGoalPose display scene_name) self

/-- The number of selected items whose goal pose is in the map and visible. -/
def visibleSelected (goals : GoalPoseMap) (sel : List (List Char)) : Nat :=
  (sel.filter (fun name =>
    match goals.find name with
    | some marker => marker.visible
    | none => false)).length

/-- The name dialog of `createGoalPoseButtonClicked` was shown and accepted with a non-empty
name that is not already a key of the map `before` the call. -/
def CreateGoalPose.acceptedNewName (out : CreateGoalPose) (before : MotionPlanningFrame)
    (getText : List Char → Bool × List Char) : Prop :=
  ∃ proposed, out.asked = some proposed ∧ (getText proposed).1 = true ∧
    (getText proposed).2 ≠ [] ∧ before.goal_poses_.find (getText proposed).2 = none

/-- The number that a string of decimal digits denotes, continuing from `acc`. -/
def digitsValue (acc : Nat) : List Char → Nat
  | [] => acc
  | c :: cs => digitsValue (10 * acc + (c.toNat - 48)) cs

/-- How the map `goals` met in the loop of `copySelectedGoalPoses` relates to the map
`before` the call, after `copies` copies have been inserted: it has grown by `copies`
entries, every entry of `before` is still there with its pose and its visibility, and every
other key is one of the names generated so far. -/
def CopyInvariant (scene : List Char) (before goals : GoalPoseMap) (copies : Nat) : Prop :=
  goals.length = before.length + copies ∧
  (∀ key old, before.find key = some old →
    ∃ marker, goals.find key = some marker ∧ marker.pose = old.pose ∧
      marker.visible = old.visible) ∧
  (∀ key, (goals.find key).isSome →
    (before.find key).isSome ∨ ∃ i, i < copies ∧ key = poseName scene (before.length + i))

/-! ## Benchmark results lines -/

/-- What `boost::lexical_cast<bool>` makes of one character: '0' is false, '1' is true, and
any other character throws `bad_lexical_cast` (`none`). -/
def lexical_cast_bool (c : Char) : Option Bool :=
  if c = '0' then some false else if c = '1' then some true else none

/-- A job handed to `addMainLoopJob`: the call `updateMarkerStateFromName(name, state)`. -/
structure MainLoopJob where
  name : List Char
  state : GripperMarkerState
deriving DecidableEq, Repr

/-- The conversion of an `int` to `size_t` in the comparison of line 909. -/
def sizeOfInt (count : Int) : Nat := (count % 18446744073709551616).toNat

/-- The call `ui_->goal_poses_list->item(row)->text()`: `none` when the list has no item at
`row` and `item` returns a null pointer. -/
def itemText (goal_poses_list : List (List Char)) (row : Int) : Option (List Char) :=
  if row < 0 then none else goal_poses_list.get? row.toNat

/-- The handling of the results line in `computeLoadBenchmarkResults` (lines 897-934):
`text_line` is the line read after the "total_time" line, `good` the state of the stream,
`count` the number of the log file, `goal_poses_list` the texts of the items of the goal
list. Yields the main-loop jobs queued, or `none` when a null item is dereferenced. A
`bad_lexical_cast` is caught and queues nothing. -/
def resultsLine (text_line : List Char) (good : Bool) (count : Int) (goal_poses_size : Nat)
    (goal_poses_list : List (List Char)) : Option (List MainLoopJob) :=
  if good && decide (6 < text_line.length) then
    match lexical_cast_bool (text_line.getD 0 (Char.ofNat 0)) with
    | none => some []
    | some reachable =>
      match lexical_cast_bool (text_line.getD 3 (Char.ofNat 0)) with
      | none => some []
      | some collision_free =>
        if sizeOfInt count ≤ goal_poses_size then
          match itemText goal_poses_list (count - 1) with
          | none => none
          | some goal_name =>
            if reachable then
              if collision_free then some [{ name := goal_name, state := .REACHABLE }]
              else some [{ name := goal_name, state := .IN_COLLISION }]
            else some [{ name := goal_name, state := .NOT_REACHABLE }]
        else some []
  else some []

/-- The method `MotionPlanningFrame::updateMarkerStateFromName` (lines 956-959). -/
def MotionPlanningFrame.updateMarkerStateFromName (self : MotionPlanningFrame)
    (name : List Char) (state : GripperMarkerState) : MotionPlanningFrame :=
  let updated := GoalPoseMap.modify (self.goal_poses_.at name).1 name
    (fun marker => { marker with state := state })
  { self with goal_poses_ := updated }

/-! ## Sample inputs -/

/-- A planner that gives the same answer to every request. -/
def constantPlanner (ok : Bool) (res : MotionPlanResponse) : PlanningPipeline :=
  { respond := fun _ _ _ _ => (ok, res) }

/-- A response with status SUCCESS, a one-point trajectory and a start state. -/
def successResponse : MotionPlanResponse :=
  { trajectory_start := { data := [7] }
    trajectory := { data := [1, 2, 3] }
    error_code := { val := MoveItErrorCodes.SUCCESS } }

/-- A response with status FAILURE and no trajectory. -/
def failureResponse : MotionPlanResponse :=
  { error_code := { val := MoveItErrorCodes.FAILURE } }

/-- A fresh plan for group "arm" with deadline 5 and no trajectory yet. -/
def freshPlan : ManipulationPlan :=
  { planning_group_ := "arm"
    timeout_ := 5
    approach_state_ := { data := [4] }
    trajectories_ := []
    trajectory_descriptions_ := []
    trajectory_start_ := {}
    error_code_ := {} }

/-- A plan that already holds one trajectory segment, labelled "approach". -/
def startedPlan : ManipulationPlan :=
  { freshPlan with
    trajectories_ := [{ data := [9] }]
    trajectory_descriptions_ := ["approach"] }

/-- A plan stage whose planner always succeeds. -/
def succeedingStage : PlanStage := PlanStage.new {} (constantPlanner true successResponse)

/-- A plan stage whose planner always fails with status FAILURE. -/
def failingStage : PlanStage := PlanStage.new {} (constantPlanner false failureResponse)

/-- A plan stage with the stop flag set, whose planner would fail with status FAILURE. -/
def stoppedStage : PlanStage :=
  { PlanStage.new {} (constantPlanner false failureResponse) with signal_stop_ := true }

/-- A plan stage named `name` whose planner always succeeds with the one-point trajectory
`[k]`. -/
def segmentStage (name : String) (k : Int) : PlanStage :=
  { PlanStage.new {} (constantPlanner true { successResponse with trajectory := { data := [k] } })
    with name_ := name }

/-- A plan stage whose planner returns false and leaves the response record as it was
handed in. -/
def silentFailingStage : PlanStage :=
  PlanStage.new {} { respond := fun _ _ _ res => (false, res) }

/-- A plan stage whose planner returns false although the response it leaves has status
SUCCESS. -/
def falseWithSuccessStage : PlanStage := PlanStage.new {} (constantPlanner false successResponse)

/-- A plan stage whose planner returns true although the response it leaves has status
FAILURE. -/
def trueWithFailureStage : PlanStage := PlanStage.new {} (constantPlanner true failureResponse)

/-- The approach stage of the spec's scenarios: `max_step_ = 0.01`, `max_fail_ = 3`,
`max_goal_count_ = 1`. -/
def scenarioApproachStage : ApproachAndTranslateStage :=
  { name_ := "approach & translate", pre_grasp_planning_scene_ := {}
    post_grasp_planning_scene_ := {}, collision_matrix_ := {}
    max_goal_count_ := 1, max_fail_ := 3, max_step_ := 0.01 }

/-- Services whose inverse kinematics fails on every request. -/
def failingServices : ApproachServices :=
  { solve := fun _ => none, collision_free := fun _ => true
    time_parameterize := fun waypoints => { data := waypoints.map (fun _ => 0) } }

/-- Services whose inverse kinematics succeeds on every request, collision-free. -/
def succeedingServices : ApproachServices :=
  { solve := fun a => some { data := [a] }, collision_free := fun _ => true
    time_parameterize := fun waypoints => { data := waypoints.map (fun _ => 0) } }

/-- A visible goal marker at the pose with data `[k]`. -/
def visibleGoal (k : Int) : GripperMarker :=
  { pose := { data := [k] }, state := .NOT_TESTED, selected := true, visible := true }

/-- A display with the planning scene "s" and one active end effector. -/
def readyDisplay : PlanningDisplay :=
  { scene_name := some ['s'], active_end_effectors := ["gripper".toList]
    tip_pose := { data := [5] } }

/-- A display with the planning scene "s" and no active end effector. -/
def noEffectorDisplay : PlanningDisplay :=
  { scene_name := some ['s'], active_end_effectors := [] }

/-- A frame with the visible goals "a" and "b" and a connected, empty database. -/
def twoGoalFrame : MotionPlanningFrame :=
  { goal_poses_ := [(['a'], visibleGoal 1), (['b'], visibleGoal 2)]
    constraints_storage_ := some {} }

/-- A frame whose only goal is named "s_pose_0001", as left behind when the first of two
goals created under their proposed names is removed. -/
def shiftedFrame : MotionPlanningFrame :=
  { goal_poses_ := [("s_pose_0001".toList, visibleGoal 1)], constraints_storage_ := none }

/-- A stub stage that accepts every plan; the world is a counter of `evaluate` calls. -/
def alwaysAccept : ManipulationStagePtr Nat :=
  { name_ := "alwaysAccept", evaluate := fun calls plan => (true, plan, calls + 1) }

/-- A stub stage that rejects every plan, leaving the error code `code` on it. -/
def alwaysReject (code : Int) : ManipulationStagePtr Nat :=
  { name_ := "alwaysReject"
    evaluate := fun calls plan => (false, { plan with error_code_ := { val := code } }, calls + 1) }

/-- A stub stage that accepts the first plan it is handed and rejects every later one. -/
def acceptFirstOnly : ManipulationStagePtr Nat :=
  { name_ := "acceptFirstOnly"
    evaluate := fun calls plan =>
      (decide (calls = 0), { plan with error_code_ := { val := if calls = 0 then 1 else -1 } },
        calls + 1) }

/-- The plan instance at address `a`, holding a fresh plan. -/
def planAt (a : Nat) : ManipulationPlanPtr := { addr := a, obj := freshPlan }

/-- A schedule for a pipeline with the single stage `acceptFirstOnly`: it pushes the instance
at address 1, lets worker 0 retire it, and pushes the same instance again. -/
def repushSchedule : List (Action Nat) :=
  [.addStage acceptFirstOnly, .push (planAt 1), .dequeue 0, .processAndRetire 0,
   .push (planAt 1)]

/-- The schedule `repushSchedule`, after which worker 0 retires the instance a second time. -/
def repushTwiceSchedule : List (Action Nat) :=
  repushSchedule ++ [.dequeue 0, .processAndRetire 0]

/-- A schedule in which every pushed instance is one the pipeline does not hold, with a
`clear` in between. -/
def freshSchedule : List (Action Nat) :=
  [.addStage acceptFirstOnly, .push (planAt 1), .dequeue 0, .push (planAt 2),
   .processAndRetire 0, .push (planAt 3), .clear, .push (planAt 2), .dequeue 0,
   .processAndRetire 0]

/-- The scenario of the spec: ten independent plans pushed into a pipeline of four workers;
the workers take and retire them in three rounds, not in push order. -/
def scenarioSchedule : List (Action Nat) :=
  (List.range 10).map (fun i => Action.push (planAt (i + 1))) ++
  [.dequeue 0, .dequeue 1, .dequeue 2, .dequeue 3,
   .processAndRetire 2, .processAndRetire 0, .dequeue 2, .processAndRetire 3,
   .processAndRetire 1, .dequeue 0, .dequeue 1, .dequeue 3,
   .processAndRetire 3, .processAndRetire 2, .processAndRetire 1, .processAndRetire 0,
   .dequeue 1, .dequeue 2, .processAndRetire 1, .processAndRetire 2]

/-- The pipeline of the scenario: four workers and the chain [alwaysAccept, alwaysReject]. -/
def scenarioPipeline : ManipulationPipeline Nat :=
  (ManipulationPipeline.new "pick" 4 0).addStages [alwaysAccept, alwaysReject (-7)]

/-! ## Theorems: PlanStage -/

theorem condition_of_running (self : PlanStage) (now : Int) (plan : ManipulationPlan)
    (h : self.signal_stop_ = false) :
    self.condition now plan =
      { ok := (self.plannerOutcome now plan).ok &&
          (self.plannerOutcome now plan).res.error_code.val == MoveItErrorCodes.SUCCESS
        res := (self.plannerOutcome now plan).res
        pipeline := (self.plannerOutcome now plan).pipeline } := by
  simp [PlanStage.condition, h]

theorem condition_of_stopped (self : PlanStage) (now : Int) (plan : ManipulationPlan)
    (h : self.signal_stop_ = true) :
    self.condition now plan = { ok := false, res := {}, pipeline := self.planning_pipeline_ } := by
  simp [PlanStage.condition, h]

theorem evaluate_accepted_eq (self : PlanStage) (now : Int) (plan : ManipulationPlan) :
    (self.evaluate now plan).accepted = (self.condition now plan).ok := by
  unfold PlanStage.evaluate
  by_cases h : (self.condition now plan).ok = true <;> simp [h]

theorem evaluate_error_code_eq (self : PlanStage) (now : Int) (plan : ManipulationPlan) :
    (self.evaluate now plan).plan.error_code_ = (self.condition now plan).res.error_code := by
  unfold PlanStage.evaluate
  by_cases h : (self.condition now plan).ok = true <;> simp [h]

theorem evaluate_pipeline_eq (self : PlanStage) (now : Int) (plan : ManipulationPlan) :
    (self.evaluate now plan).planning_pipeline = (self.condition now plan).pipeline := by
  unfold PlanStage.evaluate
  by_cases h : (self.condition now plan).ok = true <;> simp [h]

theorem evaluate_of_accepted (self : PlanStage) (now : Int) (plan : ManipulationPlan)
    (h : (self.evaluate now plan).accepted = true) :
    (self.evaluate now plan).plan =
      { plan with
        trajectories_ := (self.condition now plan).res.trajectory :: plan.trajectories_
        trajectory_start_ := (self.condition now plan).res.trajectory_start
        trajectory_descriptions_ := self.name_ :: plan.trajectory_descriptions_
        error_code_ := (self.condition now plan).res.error_code } := by
  have hc : (self.condition now plan).ok = true := by
    rw [← evaluate_accepted_eq]; exact h
  simp [PlanStage.evaluate, hc]

theorem evaluate_of_rejected (self : PlanStage) (now : Int) (plan : ManipulationPlan)
    (h : (self.evaluate now plan).accepted = false) :
    (self.evaluate now plan).plan =
      { plan with error_code_ := (self.condition now plan).res.error_code } := by
  have hc : (self.condition now plan).ok = false := by
    rw [← evaluate_accepted_eq]; exact h
  simp [PlanStage.evaluate, hc]

/-- C1: with the stop flag unset, a planner call that reports success and a response status
equal to SUCCESS, `evaluate` returns true, and afterwards the trajectories are the response
trajectory followed by the old ones, the descriptions are the stage name followed by the old
ones, and the trajectory start is the one of the response. -/
theorem C1_evaluate_success (self : PlanStage) (now : Int) (plan : ManipulationPlan)
    (hstop : self.signal_stop_ = false)
    (hok : (self.plannerOutcome now plan).ok = true)
    (hstatus : (self.plannerOutcome now plan).res.error_code.val = MoveItErrorCodes.SUCCESS) :
    (self.evaluate now plan).accepted = true ∧
    (self.evaluate now plan).plan.trajectories_ =
      (self.plannerOutcome now plan).res.trajectory :: plan.trajectories_ ∧
    (self.evaluate now plan).plan.trajectory_descriptions_ =
      self.name_ :: plan.trajectory_descriptions_ ∧
    (self.evaluate now plan).plan.trajectory_start_ =
      (self.plannerOutcome now plan).res.trajectory_start := by
  have hacc : (self.evaluate now plan).accepted = true := by
    rw [evaluate_accepted_eq, condition_of_running self now plan hstop]
    simp [hok, hstatus]
  refine ⟨hacc, ?_, ?_, ?_⟩
  all_goals
    rw [evaluate_of_accepted self now plan hacc, condition_of_running self now plan hstop]

/-- Witness for C1: a stage whose planner succeeds, on a plan that already holds a trajectory. -/
theorem C1_evaluate_success_witness :
    succeedingStage.signal_stop_ = false ∧
    (succeedingStage.plannerOutcome 0 startedPlan).ok = true ∧
    (succeedingStage.evaluate 0 startedPlan).accepted = true ∧
    (succeedingStage.evaluate 0 startedPlan).plan.trajectories_ =
      (succeedingStage.plannerOutcome 0 startedPlan).res.trajectory :: startedPlan.trajectories_ ∧
    (succeedingStage.evaluate 0 startedPlan).plan.trajectory_descriptions_ =
      succeedingStage.name_ :: startedPlan.trajectory_descriptions_ ∧
    (succeedingStage.evaluate 0 startedPlan).plan.trajectory_start_ =
      (succeedingStage.plannerOutcome 0 startedPlan).res.trajectory_start :=
  ⟨rfl, rfl, C1_evaluate_success succeedingStage 0 startedPlan rfl rfl rfl⟩

/-- C2: whenever `evaluate` returns false, the trajectories of the plan after the call are
those before the call. -/
theorem C2_rejection_keeps_trajectories (self : PlanStage) (now : Int) (plan : ManipulationPlan)
    (h : (self.evaluate now plan).accepted = false) :
    (self.evaluate now plan).plan.trajectories_ = plan.trajectories_ := by
  rw [evaluate_of_rejected self now plan h]

/-- Witness for C2: a stage whose planner fails, on a plan that already holds a trajectory. -/
theorem C2_rejection_keeps_trajectories_witness :
    (failingStage.evaluate 0 startedPlan).accepted = false ∧
    (failingStage.evaluate 0 startedPlan).plan.trajectories_ = startedPlan.trajectories_ :=
  ⟨rfl, C2_rejection_keeps_trajectories failingStage 0 startedPlan rfl⟩

/-- C3, as stated, fails: with the stop flag set the planner is never asked, and the plan
receives the status of the default-constructed response (0), not the status the planner
reports for the request (here FAILURE). -/
theorem C3_counterexample :
    (stoppedStage.evaluate 0 freshPlan).planning_pipeline.calls = [] ∧
    (stoppedStage.plannerOutcome 0 freshPlan).res.error_code.val = MoveItErrorCodes.FAILURE ∧
    (stoppedStage.evaluate 0 freshPlan).plan.error_code_.val = 0 ∧
    (stoppedStage.evaluate 0 freshPlan).plan.error_code_ ≠
      (stoppedStage.plannerOutcome 0 freshPlan).res.error_code := by
  refine ⟨rfl, rfl, rfl, ?_⟩
  decide

/-- C3, amended: after every call of `evaluate`, accepting or rejecting, the error code of the
plan is the one of the response record of that call: the status reported by the planner when
the stop flag is unset, and the status of a default-constructed response (0) when the stop
flag is set, in which case the planner history is unchanged. -/
theorem C3_error_code_recorded (self : PlanStage) (now : Int) (plan : ManipulationPlan) :
    (self.evaluate now plan).plan.error_code_ =
      (if self.signal_stop_ then ({} : MotionPlanResponse).error_code
       else (self.plannerOutcome now plan).res.error_code) ∧
    (self.signal_stop_ = true →
      (self.evaluate now plan).plan.error_code_.val = 0 ∧
      (self.evaluate now plan).planning_pipeline.calls = self.planning_pipeline_.calls) := by
  rw [evaluate_error_code_eq, evaluate_pipeline_eq]
  cases h : self.signal_stop_
  · rw [condition_of_running self now plan h]; simp
  · rw [condition_of_stopped self now plan h]; simp

/-- C4, as stated, fails: with the deadline 5 already past at time 10 and the stop flag unset,
`evaluate` hands the planner a request with allowed planning time -5 and, the planner
succeeding, returns true. -/
theorem C4_counterexample :
    freshPlan.timeout_ - 10 ≤ 0 ∧
    (succeedingStage.evaluate 10 freshPlan).accepted = true ∧
    (succeedingStage.evaluate 10 freshPlan).planning_pipeline.calls =
      [PlannerCall.generatePlan {} (PlanStage.request 10 freshPlan)] ∧
    (PlanStage.request 10 freshPlan).allowed_planning_time = -5 := by
  refine ⟨by decide, rfl, rfl, rfl⟩

/-- C4, amended: when the deadline of the plan is already past (timeout - now is zero or
negative), `evaluate` makes no deadline check. With the stop flag unset it invokes
`generatePlan` exactly once, with allowed planning time timeout - now (zero or negative), and
returns true exactly when the planner reports success with status SUCCESS; with the stop flag
set it returns false and the planner is not invoked. -/
theorem C4_past_deadline_still_plans (self : PlanStage) (now : Int) (plan : ManipulationPlan)
    (hpast : plan.timeout_ - now ≤ 0) :
    (self.signal_stop_ = false →
      (self.evaluate now plan).planning_pipeline.calls =
        self.planning_pipeline_.calls ++
          [PlannerCall.generatePlan self.planning_scene_ (PlanStage.request now plan)] ∧
      (PlanStage.request now plan).allowed_planning_time = plan.timeout_ - now ∧
      (PlanStage.request now plan).allowed_planning_time ≤ 0 ∧
      (self.evaluate now plan).accepted =
        ((self.plannerOutcome now plan).ok &&
          (self.plannerOutcome now plan).res.error_code.val == MoveItErrorCodes.SUCCESS)) ∧
    (self.signal_stop_ = true →
      (self.evaluate now plan).accepted = false ∧
      (self.evaluate now plan).planning_pipeline.calls = self.planning_pipeline_.calls) := by
  rw [evaluate_accepted_eq, evaluate_pipeline_eq]
  constructor
  · intro h
    rw [condition_of_running self now plan h]
    exact ⟨rfl, rfl, hpast, rfl⟩
  · intro h
    rw [condition_of_stopped self now plan h]
    exact ⟨rfl, rfl⟩

/-- Witness for C4 as amended: deadline 5, clock reading 10, planner succeeding. -/
theorem C4_past_deadline_still_plans_witness :
    freshPlan.timeout_ - 10 ≤ 0 ∧
    (succeedingStage.signal_stop_ = false →
      (succeedingStage.evaluate 10 freshPlan).planning_pipeline.calls =
        succeedingStage.planning_pipeline_.calls ++
          [PlannerCall.generatePlan succeedingStage.planning_scene_
            (PlanStage.request 10 freshPlan)] ∧
      (PlanStage.request 10 freshPlan).allowed_planning_time = freshPlan.timeout_ - 10 ∧
      (PlanStage.request 10 freshPlan).allowed_planning_time ≤ 0 ∧
      (succeedingStage.evaluate 10 freshPlan).accepted =
        ((succeedingStage.plannerOutcome 10 freshPlan).ok &&
          (succeedingStage.plannerOutcome 10 freshPlan).res.error_code.val ==
            MoveItErrorCodes.SUCCESS)) ∧
    (succeedingStage.signal_stop_ = true →
      (succeedingStage.evaluate 10 freshPlan).accepted = false ∧
      (succeedingStage.evaluate 10 freshPlan).planning_pipeline.calls =
        succeedingStage.planning_pipeline_.calls) :=
  ⟨by decide, C4_past_deadline_still_plans succeedingStage 10 freshPlan (by decide)⟩

/-- C5: if the stop flag is set when `evaluate` is called, `evaluate` returns false and the
planning pipeline is left as it was: its history gains no `generatePlan` call. -/
theorem C5_stop_flag_blocks_planner (self : PlanStage) (now : Int) (plan : ManipulationPlan)
    (hstop : self.signal_stop_ = true) :
    (self.evaluate now plan).accepted = false ∧
    (self.evaluate now plan).planning_pipeline.calls = self.planning_pipeline_.calls ∧
    ∀ scene req, PlannerCall.generatePlan scene req ∈
        (self.evaluate now plan).planning_pipeline.calls →
      PlannerCall.generatePlan scene req ∈ self.planning_pipeline_.calls := by
  rw [evaluate_accepted_eq, evaluate_pipeline_eq, condition_of_stopped self now plan hstop]
  exact ⟨rfl, rfl, fun _ _ h => h⟩

/-- Witness for C5: a stage with the stop flag set and an empty planner history. -/
theorem C5_stop_flag_blocks_planner_witness :
    stoppedStage.signal_stop_ = true ∧
    (stoppedStage.evaluate 0 freshPlan).accepted = false ∧
    (stoppedStage.evaluate 0 freshPlan).planning_pipeline.calls =
      stoppedStage.planning_pipeline_.calls ∧
    ∀ scene req, PlannerCall.generatePlan scene req ∈
        (stoppedStage.evaluate 0 freshPlan).planning_pipeline.calls →
      PlannerCall.generatePlan scene req ∈ stoppedStage.planning_pipeline_.calls :=
  ⟨rfl, C5_stop_flag_blocks_planner stoppedStage 0 freshPlan rfl⟩

/-- C10: every call of `PlanStage::signalStop` sets the stop flag of the stage (the effect of
the base `signalStop`) and appends one `terminate` call to the history of the planning
pipeline; the name, the scene and the behaviour of the planner are untouched. -/
theorem C10_signalStop_propagates (self : PlanStage) :
    self.signalStop.signal_stop_ = true ∧
    self.signalStop.toManipulationStage = self.toManipulationStage.signalStop ∧
    self.signalStop.planning_pipeline_ = self.planning_pipeline_.terminate ∧
    self.signalStop.planning_pipeline_.calls =
      self.planning_pipeline_.calls ++ [PlannerCall.terminate] ∧
    self.signalStop.name_ = self.name_ ∧
    self.signalStop.planning_scene_ = self.planning_scene_ ∧
    self.signalStop.planning_pipeline_.respond = self.planning_pipeline_.respond :=
  ⟨rfl, rfl, rfl, rfl, rfl, rfl, rfl⟩

theorem running_of_accepted (self : PlanStage) (now : Int) (plan : ManipulationPlan)
    (h : (self.evaluate now plan).accepted = true) : self.signal_stop_ = false := by
  cases hs : self.signal_stop_
  · rfl
  · rw [evaluate_accepted_eq, condition_of_stopped self now plan hs] at h
    simp at h

theorem evaluate_accepted_prepends (self : PlanStage) (now : Int) (plan : ManipulationPlan)
    (h : (self.evaluate now plan).accepted = true) :
    (self.evaluate now plan).plan.trajectories_ =
      (self.plannerOutcome now plan).res.trajectory :: plan.trajectories_ ∧
    (self.evaluate now plan).plan.trajectory_descriptions_ =
      self.name_ :: plan.trajectory_descriptions_ := by
  have hs := running_of_accepted self now plan h
  constructor <;>
    rw [evaluate_of_accepted self now plan h, condition_of_running self now plan hs]

/-- C6, as stated, fails for a plan that already holds a trajectory: after three accepting
plan stages the plan holds four trajectories (the three new segments, then the old one) and
four descriptions, not the three segments alone. -/
theorem C6_counterexample :
    (succeedingStage.evaluate 0 startedPlan).accepted = true ∧
    (succeedingStage.evaluate 0 (succeedingStage.evaluate 0 startedPlan).plan).accepted = true ∧
    (succeedingStage.evaluate 0 (succeedingStage.evaluate 0
      (succeedingStage.evaluate 0 startedPlan).plan).plan).accepted = true ∧
    (succeedingStage.evaluate 0 (succeedingStage.evaluate 0
      (succeedingStage.evaluate 0 startedPlan).plan).plan).plan.trajectories_ ≠
      [successResponse.trajectory, successResponse.trajectory, successResponse.trajectory] ∧
    (succeedingStage.evaluate 0 (succeedingStage.evaluate 0
      (succeedingStage.evaluate 0 startedPlan).plan).plan).plan.trajectory_descriptions_ ≠
      [succeedingStage.name_, succeedingStage.name_, succeedingStage.name_] := by
  refine ⟨rfl, rfl, rfl, ?_, ?_⟩ <;> decide

/-- C6, amended: for a plan accepted by three plan stages evaluated in the order S1, S2, S3,
the trajectories afterwards are the segment of S3, the segment of S2, the segment of S1, then
the trajectories the plan held before S1 ran, and the descriptions are the names of S3, S2,
S1, then the old descriptions; for a plan that held none before S1 ran these are exactly the
three segments and the three names, in reverse order of evaluation. -/
theorem C6_chain_order (s1 s2 s3 : PlanStage) (n1 n2 n3 : Int) (plan : ManipulationPlan)
    (h1 : (s1.evaluate n1 plan).accepted = true)
    (h2 : (s2.evaluate n2 (s1.evaluate n1 plan).plan).accepted = true)
    (h3 : (s3.evaluate n3 (s2.evaluate n2 (s1.evaluate n1 plan).plan).plan).accepted = true) :
    (s3.evaluate n3 (s2.evaluate n2 (s1.evaluate n1 plan).plan).plan).plan.trajectories_ =
      [(s3.plannerOutcome n3 (s2.evaluate n2 (s1.evaluate n1 plan).plan).plan).res.trajectory,
       (s2.plannerOutcome n2 (s1.evaluate n1 plan).plan).res.trajectory,
       (s1.plannerOutcome n1 plan).res.trajectory] ++ plan.trajectories_ ∧
    (s3.evaluate n3 (s2.evaluate n2
      (s1.evaluate n1 plan).plan).plan).plan.trajectory_descriptions_ =
      [s3.name_, s2.name_, s1.name_] ++ plan.trajectory_descriptions_ ∧
    (plan.trajectories_ = [] →
      (s3.evaluate n3 (s2.evaluate n2 (s1.evaluate n1 plan).plan).plan).plan.trajectories_ =
      [(s3.plannerOutcome n3 (s2.evaluate n2 (s1.evaluate n1 plan).plan).plan).res.trajectory,
       (s2.plannerOutcome n2 (s1.evaluate n1 plan).plan).res.trajectory,
       (s1.plannerOutcome n1 plan).res.trajectory]) ∧
    (plan.trajectory_descriptions_ = [] →
      (s3.evaluate n3 (s2.evaluate n2
        (s1.evaluate n1 plan).plan).plan).plan.trajectory_descriptions_ =
      [s3.name_, s2.name_, s1.name_]) := by
  obtain ⟨t1, d1⟩ := evaluate_accepted_prepends s1 n1 plan h1
  obtain ⟨t2, d2⟩ := evaluate_accepted_prepends s2 n2 _ h2
  obtain ⟨t3, d3⟩ := evaluate_accepted_prepends s3 n3 _ h3
  have ht : (s3.evaluate n3 (s2.evaluate n2 (s1.evaluate n1 plan).plan).plan).plan.trajectories_ =
      [(s3.plannerOutcome n3 (s2.evaluate n2 (s1.evaluate n1 plan).plan).plan).res.trajectory,
       (s2.plannerOutcome n2 (s1.evaluate n1 plan).plan).res.trajectory,
       (s1.plannerOutcome n1 plan).res.trajectory] ++ plan.trajectories_ := by
    rw [t3, t2, t1]; rfl
  have hd : (s3.evaluate n3 (s2.evaluate n2
      (s1.evaluate n1 plan).plan).plan).plan.trajectory_descriptions_ =
      [s3.name_, s2.name_, s1.name_] ++ plan.trajectory_descriptions_ := by
    rw [d3, d2, d1]; rfl
  refine ⟨ht, hd, ?_, ?_⟩
  · intro h0; rw [ht, h0]; rfl
  · intro h0; rw [hd, h0]; rfl

/-- Witness for C6 as amended: three stages with segments [1], [2], [3] on a fresh plan. -/
theorem C6_chain_order_witness :
    ((segmentStage "S3" 3).evaluate 0 ((segmentStage "S2" 2).evaluate 0
      ((segmentStage "S1" 1).evaluate 0 freshPlan).plan).plan).accepted = true ∧
    ((segmentStage "S3" 3).evaluate 0 ((segmentStage "S2" 2).evaluate 0
      ((segmentStage "S1" 1).evaluate 0 freshPlan).plan).plan).plan.trajectories_ =
      [{ data := [3] }, { data := [2] }, { data := [1] }] ∧
    ((segmentStage "S3" 3).evaluate 0 ((segmentStage "S2" 2).evaluate 0
      ((segmentStage "S1" 1).evaluate 0 freshPlan).plan).plan).plan.trajectory_descriptions_ =
      ["S3", "S2", "S1"] :=
  ⟨rfl,
   (C6_chain_order (segmentStage "S1" 1) (segmentStage "S2" 2) (segmentStage "S3" 3) 0 0 0
      freshPlan rfl rfl rfl).2.2.1 rfl,
   (C6_chain_order (segmentStage "S1" 1) (segmentStage "S2" 2) (segmentStage "S3" 3) 0 0 0
      freshPlan rfl rfl rfl).2.2.2 rfl⟩

/-! ## Theorems: the stage chain -/

theorem processStages_cons_accept {σ : Type} (stage : ManipulationStagePtr σ)
    (rest : List (ManipulationStagePtr σ)) (k : Nat) (world : σ) (plan : ManipulationPlan)
    (h : (stage.evaluate world plan).1 = true) :
    processStages (stage :: rest) k world plan =
      { processStages rest (k + 1) (stage.evaluate world plan).2.2
          (stage.evaluate world plan).2.1 with
        invoked := { index := k, accepted := true } ::
          (processStages rest (k + 1) (stage.evaluate world plan).2.2
            (stage.evaluate world plan).2.1).invoked } := by
  simp [processStages, h]

theorem processStages_cons_reject {σ : Type} (stage : ManipulationStagePtr σ)
    (rest : List (ManipulationStagePtr σ)) (k : Nat) (world : σ) (plan : ManipulationPlan)
    (h : (stage.evaluate world plan).1 = false) :
    processStages (stage :: rest) k world plan =
      { accepted := false, plan := (stage.evaluate world plan).2.1
        world := (stage.evaluate world plan).2.2
        invoked := [{ index := k, accepted := false }] } := by
  simp [processStages, h]

theorem processStages_reject_log {σ : Type} (stages : List (ManipulationStagePtr σ)) :
    ∀ (k : Nat) (world : σ) (plan : ManipulationPlan) (i : Nat),
      ({ index := i, accepted := false } : StageCall) ∈
        (processStages stages k world plan).invoked →
      k ≤ i ∧
      (processStages stages k world plan).accepted = false ∧
      (processStages stages k world plan).invoked =
        (List.range' k (i - k)).map (fun j => ({ index := j, accepted := true } : StageCall)) ++
          [{ index := i, accepted := false }] := by
  induction stages with
  | nil =>
    intro k world plan i h
    simp [processStages] at h
  | cons stage rest ih =>
    intro k world plan i h
    cases hev : (stage.evaluate world plan).1
    · rw [processStages_cons_reject stage rest k world plan hev] at h ⊢
      simp at h
      subst h
      simp
    · rw [processStages_cons_accept stage rest k world plan hev] at h ⊢
      simp at h
      obtain ⟨hk, hacc, hlog⟩ := ih (k + 1) _ _ i h
      refine ⟨by omega, hacc, ?_⟩
      have hik : i - k = (i - (k + 1)) + 1 := by omega
      simp only []
      rw [hlog, hik, List.range'_succ]
      simp

theorem processStages_rejected_by {σ : Type} (stages : List (ManipulationStagePtr σ)) :
    ∀ (k : Nat) (world : σ) (plan : ManipulationPlan),
      (processStages stages k world plan).accepted = false →
      ∃ stage ∈ stages, ∃ (w : σ) (p : ManipulationPlan),
        (stage.evaluate w p).1 = false ∧
        (processStages stages k world plan).plan = (stage.evaluate w p).2.1 := by
  induction stages with
  | nil =>
    intro k world plan h
    simp [processStages] at h
  | cons stage rest ih =>
    intro k world plan h
    cases hev : (stage.evaluate world plan).1
    · rw [processStages_cons_reject stage rest k world plan hev]
      exact ⟨stage, List.mem_cons_self _ _, world, plan, hev, rfl⟩
    · rw [processStages_cons_accept stage rest k world plan hev] at h ⊢
      obtain ⟨s, hs, w, p, hrej, hplan⟩ := ih (k + 1) _ _ h
      exact ⟨s, List.mem_cons_of_mem _ hs, w, p, hrej, hplan⟩

/-- C7: in the processing of one plan by a stage chain, if the stage at position i is invoked
and rejects, then the invocations of `evaluate` for that plan are exactly the stages at
positions 0 to i, once each and in chain order, all but the last accepting; no stage after
position i is invoked, and the plan is rejected. -/
theorem C7_fail_fast {σ : Type} (stages : List (ManipulationStagePtr σ)) (world : σ)
    (plan : ManipulationPlan) (i : Nat)
    (h : ({ index := i, accepted := false } : StageCall) ∈
      (processStages stages 0 world plan).invoked) :
    (processStages stages 0 world plan).invoked =
      (List.range i).map (fun j => ({ index := j, accepted := true } : StageCall)) ++
        [{ index := i, accepted := false }] ∧
    (processStages stages 0 world plan).invoked.map (fun c => c.index) = List.range (i + 1) ∧
    (∀ c ∈ (processStages stages 0 world plan).invoked, c.index ≤ i) ∧
    (processStages stages 0 world plan).accepted = false := by
  obtain ⟨_, hacc, hlog⟩ := processStages_reject_log stages 0 world plan i h
  simp only [Nat.sub_zero, ← List.range_eq_range'] at hlog
  refine ⟨hlog, ?_, ?_, hacc⟩
  · rw [hlog, List.range_succ]
    simp [Function.comp_def]
  · intro c hc
    rw [hlog] at hc
    simp at hc
    rcases hc with ⟨j, hj, rfl⟩ | rfl
    · exact Nat.le_of_lt hj
    · exact Nat.le_refl _

/-- Witness for C7: the chain [alwaysAccept, alwaysReject, alwaysAccept]; the second stage
rejects, the call counter ends at 2 and the third stage is never invoked. -/
theorem C7_fail_fast_witness :
    ({ index := 1, accepted := false } : StageCall) ∈
      (processStages [alwaysAccept, alwaysReject (-1), alwaysAccept] 0 0 freshPlan).invoked ∧
    (processStages [alwaysAccept, alwaysReject (-1), alwaysAccept] 0 0 freshPlan).invoked =
      [{ index := 0, accepted := true }, { index := 1, accepted := false }] ∧
    (processStages [alwaysAccept, alwaysReject (-1), alwaysAccept] 0 0 freshPlan).world = 2 :=
  ⟨by decide,
   (C7_fail_fast [alwaysAccept, alwaysReject (-1), alwaysAccept] 0 freshPlan 1 (by decide)).1,
   rfl⟩

/-! ## Theorems: ownership of plan instances -/

theorem takeWorker_count (index : Nat) :
    ∀ (busy : List (Nat × ManipulationPlanPtr)) (g : ManipulationPlanPtr)
      (others : List (Nat × ManipulationPlanPtr)),
      takeWorker index busy = some (g, others) →
      ∀ a, (busy.map (fun e => e.2.addr)).count a =
        (others.map (fun e => e.2.addr)).count a + [g.addr].count a := by
  intro busy
  induction busy with
  | nil => intro g others h; simp [takeWorker] at h
  | cons entry rest ih =>
    intro g others h a
    unfold takeWorker at h
    by_cases hi : entry.1 = index
    · simp [hi] at h
      obtain ⟨rfl, rfl⟩ := h
      simp [List.count_cons]
    · simp only [hi, if_false] at h
      cases ht : takeWorker index rest with
      | none => simp [ht] at h
      | some pr =>
        obtain ⟨g1, others1⟩ := pr
        simp [ht] at h
        obtain ⟨rfl, rfl⟩ := h
        have := ih g1 others1 ht a
        simp [List.count_cons] at this ⊢
        omega

theorem owners_addStage {σ : Type} (self : ManipulationPipeline σ)
    (next : ManipulationStagePtr σ) (a : Nat) :
    (self.addStage next).owners a = self.owners a := rfl

theorem owners_push {σ : Type} (self : ManipulationPipeline σ) (grasp : ManipulationPlanPtr)
    (a : Nat) : (self.push grasp).owners a = self.owners a + [grasp.addr].count a := by
  simp [ManipulationPipeline.owners, ManipulationPipeline.push, addrs,
    ManipulationPipeline.inFlightAddrs, List.count_cons]
  omega

theorem owners_clear {σ : Type} (self : ManipulationPipeline σ) (a : Nat) :
    self.clear.owners a ≤ self.owners a := by
  simp [ManipulationPipeline.owners, ManipulationPipeline.clear, addrs,
    ManipulationPipeline.inFlightAddrs]

theorem owners_reset {σ : Type} (self : ManipulationPipeline σ) (a : Nat) :
    self.reset.owners a ≤ self.owners a := by
  simp [ManipulationPipeline.owners, ManipulationPipeline.reset, addrs,
    ManipulationPipeline.inFlightAddrs]
  omega

theorem owners_dequeue {σ : Type} (self : ManipulationPipeline σ) (index : Nat) (a : Nat) :
    (self.dequeue index).owners a = self.owners a := by
  unfold ManipulationPipeline.dequeue
  cases hq : self.queue_ with
  | nil => simp
  | cons g rest =>
    by_cases hc : index < self.nthreads_ ∧ (takeWorker index self.in_flight).isNone = true
    · simp only [hc, and_self, if_true]
      simp [ManipulationPipeline.owners, addrs, ManipulationPipeline.inFlightAddrs, hq,
        List.count_cons]
      omega
    · simp only [hc, if_false]

theorem owners_processAndRetire {σ : Type} (self : ManipulationPipeline σ) (index : Nat)
    (a : Nat) : (self.processAndRetire index).owners a = self.owners a := by
  unfold ManipulationPipeline.processAndRetire
  cases ht : takeWorker index self.in_flight with
  | none => simp
  | some pr =>
    obtain ⟨g, others⟩ := pr
    have hcount := takeWorker_count index self.in_flight g others ht a
    cases hacc : (processStages self.stages_ 0 self.world g.obj).accepted <;>
      simp [ManipulationPipeline.owners, addrs, ManipulationPipeline.inFlightAddrs, hacc,
        List.count_cons] at hcount ⊢ <;> omega

theorem owners_step_of_not_push {σ : Type} (self : ManipulationPipeline σ) (act : Action σ)
    (h : ∀ grasp, act ≠ Action.push grasp) (a : Nat) :
    (self.step act).owners a ≤ self.owners a := by
  cases act with
  | addStage next => exact Nat.le_of_eq (owners_addStage self next a)
  | push grasp => exact absurd rfl (h grasp)
  | clear => exact owners_clear self a
  | reset => exact owners_reset self a
  | dequeue index => exact Nat.le_of_eq (owners_dequeue self index a)
  | processAndRetire index => exact Nat.le_of_eq (owners_processAndRetire self index a)

theorem owners_run_le_one {σ : Type} (acts : List (Action σ)) :
    ∀ (self : ManipulationPipeline σ), self.freshPushes acts = true →
      (∀ a, self.owners a ≤ 1) → ∀ a, (self.run acts).owners a ≤ 1 := by
  induction acts with
  | nil => intro self _ h a; exact h a
  | cons act rest ih =>
    intro self hfresh hinv
    cases act with
    | push grasp =>
      simp only [ManipulationPipeline.freshPushes, Bool.and_eq_true, beq_iff_eq] at hfresh
      refine ih _ hfresh.2 ?_
      intro a
      show (self.push grasp).owners a ≤ 1
      rw [owners_push]
      by_cases hga : grasp.addr = a
      · subst hga; simp [hfresh.1]
      · have := hinv a
        simp [List.count_cons, hga]
        exact this
    | addStage next =>
      exact ih _ hfresh (fun a => Nat.le_trans
        (owners_step_of_not_push self (.addStage next) (by intro g; simp) a) (hinv a))
    | clear =>
      exact ih _ hfresh (fun a => Nat.le_trans
        (owners_step_of_not_push self .clear (by intro g; simp) a) (hinv a))
    | reset =>
      exact ih _ hfresh (fun a => Nat.le_trans
        (owners_step_of_not_push self .reset (by intro g; simp) a) (hinv a))
    | dequeue index =>
      exact ih _ hfresh (fun a => Nat.le_trans
        (owners_step_of_not_push self (.dequeue index) (by intro g; simp) a) (hinv a))
    | processAndRetire index =>
      exact ih _ hfresh (fun a => Nat.le_trans
        (owners_step_of_not_push self (.processAndRetire index) (by intro g; simp) a) (hinv a))

theorem atMostOneOwner_of_owners {σ : Type} (self : ManipulationPipeline σ)
    (h : ∀ a, self.owners a ≤ 1) : self.AtMostOneOwner := by
  constructor
  · intro a hs hf
    have h1 := List.count_pos_iff.mpr hs
    have h2 := List.count_pos_iff.mpr hf
    have := h a
    unfold ManipulationPipeline.owners at this
    omega
  · intro a hq
    have h0 := List.count_pos_iff.mpr hq
    have := h a
    unfold ManipulationPipeline.owners at this
    constructor
    · intro hs
      have h1 := List.count_pos_iff.mpr hs
      omega
    · intro hf
      have h2 := List.count_pos_iff.mpr hf
      omega

/-- C8, as stated, fails: `push` accepts any instance, so pushing again an instance that has
already been retired puts it in the queue and in the success collection at once, and after a
second processing it is in both the success and the failure collection. -/
theorem C8_counterexample :
    (1 ∈ addrs ((ManipulationPipeline.new "pick" 1 0).run repushSchedule).queue_ ∧
     1 ∈ addrs ((ManipulationPipeline.new "pick" 1 0).run repushSchedule).success_) ∧
    (1 ∈ addrs ((ManipulationPipeline.new "pick" 1 0).run repushTwiceSchedule).success_ ∧
     1 ∈ addrs ((ManipulationPipeline.new "pick" 1 0).run repushTwiceSchedule).failed_) ∧
    ¬ ((ManipulationPipeline.new "pick" 1 0).run repushSchedule).AtMostOneOwner ∧
    ¬ ((ManipulationPipeline.new "pick" 1 0).run repushTwiceSchedule).AtMostOneOwner := by
  have h1 : 1 ∈ addrs ((ManipulationPipeline.new "pick" 1 0).run repushSchedule).queue_ := by
    decide
  have h2 : 1 ∈ addrs ((ManipulationPipeline.new "pick" 1 0).run repushSchedule).success_ := by
    decide
  have h3 : 1 ∈ addrs ((ManipulationPipeline.new "pick" 1 0).run repushTwiceSchedule).success_ :=
    by decide
  have h4 : 1 ∈ addrs ((ManipulationPipeline.new "pick" 1 0).run repushTwiceSchedule).failed_ :=
    by decide
  exact ⟨⟨h1, h2⟩, ⟨h3, h4⟩, fun h => (h.2 1 h1).1 h2, fun h => h.1 1 h3 h4⟩

/-- C8, amended: in every state reached from a newly constructed pipeline by any schedule of
addStage, push, clear, reset, worker dequeue and worker process-and-retire (to success or to
failure) in which every push hands over an instance the pipeline does not hold at that
moment, every instance is held in at most one place among the queue, the busy workers, the
success collection and the failure collection; in particular no instance is in both the
success and the failure collection, and none is in the queue and in a result collection. -/
theorem C8_at_most_one_owner {σ : Type} (name : String) (nthreads : Nat) (world : σ)
    (acts : List (Action σ))
    (hfresh : (ManipulationPipeline.new name nthreads world).freshPushes acts = true) :
    ((ManipulationPipeline.new name nthreads world).run acts).AtMostOneOwner ∧
    ∀ a, ((ManipulationPipeline.new name nthreads world).run acts).owners a ≤ 1 := by
  have h := owners_run_le_one acts (ManipulationPipeline.new name nthreads world) hfresh
    (by intro a; simp [ManipulationPipeline.owners, ManipulationPipeline.new, addrs,
      ManipulationPipeline.inFlightAddrs])
  exact ⟨atMostOneOwner_of_owners _ h, h⟩

/-- Witness for C8 as amended: a schedule with three instances, a `clear`, and a push of an
instance that `clear` had dropped. -/
theorem C8_at_most_one_owner_witness :
    (ManipulationPipeline.new "pick" 1 0).freshPushes freshSchedule = true ∧
    addrs ((ManipulationPipeline.new "pick" 1 0).run freshSchedule).success_ = [1] ∧
    addrs ((ManipulationPipeline.new "pick" 1 0).run freshSchedule).failed_ = [2] ∧
    ((ManipulationPipeline.new "pick" 1 0).run freshSchedule).AtMostOneOwner :=
  ⟨by decide, by decide, by decide,
   (C8_at_most_one_owner "pick" 1 0 freshSchedule (by decide)).1⟩

/-! ## Theorems: a chain whose last stage rejects -/

theorem processStages_last_rejects {σ : Type} (chain : List (ManipulationStagePtr σ))
    (hne : chain ≠ [])
    (hrej : ∀ (w : σ) (p : ManipulationPlan), ((chain.getLast hne).evaluate w p).1 = false) :
    ∀ (k : Nat) (world : σ) (plan : ManipulationPlan),
      (processStages chain k world plan).accepted = false := by
  induction chain with
  | nil => exact absurd rfl hne
  | cons stage rest ih =>
    intro k world plan
    cases hev : (stage.evaluate world plan).1
    · rw [processStages_cons_reject stage rest k world plan hev]
    · rw [processStages_cons_accept stage rest k world plan hev]
      by_cases hrest : rest = []
      · subst hrest
        have := hrej world plan
        simp at this
        rw [this] at hev
        exact absurd hev (by simp)
      · have hlast : (stage :: rest).getLast hne = rest.getLast hrest :=
          List.getLast_cons hrest
        exact ih hrest (fun w p => by rw [← hlast]; exact hrej w p) (k + 1) _ _

theorem addStages_eq {σ : Type} (chain : List (ManipulationStagePtr σ)) :
    ∀ (self : ManipulationPipeline σ),
      self.addStages chain = { self with stages_ := self.stages_ ++ chain } := by
  induction chain with
  | nil => intro self; simp [ManipulationPipeline.addStages]
  | cons stage rest ih =>
    intro self
    have := ih (self.addStage stage)
    simp only [ManipulationPipeline.addStages, List.foldl_cons] at this ⊢
    rw [this]
    simp [ManipulationPipeline.addStage]

theorem pushedAddrs_cons {σ : Type} (act : Action σ) (rest : List (Action σ)) :
    pushedAddrs (act :: rest) = pushedAddrs [act] ++ pushedAddrs rest := by
  cases act <;> rfl

theorem workOnly_cons {σ : Type} (act : Action σ) (rest : List (Action σ)) :
    workOnly (act :: rest) = (workOnly [act] && workOnly rest) := by
  cases act <;> simp [workOnly]

theorem step_workOnly {σ : Type} (chain : List (ManipulationStagePtr σ))
    (hrej : ∀ (k : Nat) (w : σ) (p : ManipulationPlan),
      (processStages chain k w p).accepted = false)
    (self : ManipulationPipeline σ) (act : Action σ) (hwork : workOnly [act] = true)
    (hst : self.stages_ = chain) (hsucc : self.success_ = [])
    (hcalls : self.solution_callback_calls = 0)
    (hfail : ∀ f ∈ self.failed_, RejectedBy chain f) :
    (self.step act).stages_ = chain ∧ (self.step act).success_ = [] ∧
    (self.step act).solution_callback_calls = 0 ∧
    (∀ f ∈ (self.step act).failed_, RejectedBy chain f) ∧
    ∀ a, (self.step act).unfinishedOrFailed a =
      self.unfinishedOrFailed a + (pushedAddrs [act]).count a := by
  cases act with
  | addStage next => simp [workOnly] at hwork
  | clear => simp [workOnly] at hwork
  | reset => simp [workOnly] at hwork
  | push grasp =>
    refine ⟨hst, hsucc, hcalls, hfail, ?_⟩
    intro a
    simp [ManipulationPipeline.step, ManipulationPipeline.push,
      ManipulationPipeline.unfinishedOrFailed, addrs, ManipulationPipeline.inFlightAddrs,
      pushedAddrs, List.count_cons]
    omega
  | dequeue index =>
    simp only [ManipulationPipeline.step, ManipulationPipeline.dequeue]
    cases hq : self.queue_ with
    | nil => exact ⟨hst, hsucc, hcalls, hfail, by intro a; simp [pushedAddrs]⟩
    | cons g rest =>
      by_cases hc : index < self.nthreads_ ∧ (takeWorker index self.in_flight).isNone = true
      · simp only [hc, and_self, if_true]
        refine ⟨hst, hsucc, hcalls, hfail, ?_⟩
        intro a
        simp [ManipulationPipeline.unfinishedOrFailed, addrs,
          ManipulationPipeline.inFlightAddrs, hq, pushedAddrs, List.count_cons]
        omega
      · simp only [hc, if_false]
        exact ⟨hst, hsucc, hcalls, hfail, by intro a; simp [pushedAddrs]⟩
  | processAndRetire index =>
    simp only [ManipulationPipeline.step, ManipulationPipeline.processAndRetire]
    cases ht : takeWorker index self.in_flight with
    | none => exact ⟨hst, hsucc, hcalls, hfail, by intro a; simp [pushedAddrs]⟩
    | some pr =>
      obtain ⟨g, others⟩ := pr
      have hacc : (processStages self.stages_ 0 self.world g.obj).accepted = false := by
        rw [hst]; exact hrej 0 self.world g.obj
      simp only [hacc]
      refine ⟨hst, hsucc, hcalls, ?_, ?_⟩
      · intro f hf
        simp at hf
        rcases hf with hf | rfl
        · exact hfail f hf
        · obtain ⟨stage, hmem, w, p, hno, hplan⟩ :=
            processStages_rejected_by self.stages_ 0 self.world g.obj hacc
          exact ⟨stage, hst ▸ hmem, w, p, hno, hplan⟩
      · intro a
        have hcount := takeWorker_count index self.in_flight g others ht a
        simp [ManipulationPipeline.unfinishedOrFailed, addrs,
          ManipulationPipeline.inFlightAddrs, pushedAddrs, List.count_cons] at hcount ⊢
        omega

theorem run_workOnly {σ : Type} (chain : List (ManipulationStagePtr σ))
    (hrej : ∀ (k : Nat) (w : σ) (p : ManipulationPlan),
      (processStages chain k w p).accepted = false)
    (acts : List (Action σ)) :
    ∀ (self : ManipulationPipeline σ), workOnly acts = true →
      self.stages_ = chain → self.success_ = [] → self.solution_callback_calls = 0 →
      (∀ f ∈ self.failed_, RejectedBy chain f) →
      (self.run acts).success_ = [] ∧ (self.run acts).solution_callback_calls = 0 ∧
      (∀ f ∈ (self.run acts).failed_, RejectedBy chain f) ∧
      ∀ a, (self.run acts).unfinishedOrFailed a =
        self.unfinishedOrFailed a + (pushedAddrs acts).count a := by
  induction acts with
  | nil =>
    intro self _ _ hsucc hcalls hfail
    exact ⟨hsucc, hcalls, hfail, by intro a; simp [ManipulationPipeline.run, pushedAddrs]⟩
  | cons act rest ih =>
    intro self hwork hst hsucc hcalls hfail
    rw [workOnly_cons, Bool.and_eq_true] at hwork
    obtain ⟨s1, s2, s3, s4, s5⟩ :=
      step_workOnly chain hrej self act hwork.1 hst hsucc hcalls hfail
    obtain ⟨r1, r2, r3, r4⟩ := ih (self.step act) hwork.2 s1 s2 s3 s4
    refine ⟨r1, r2, r3, ?_⟩
    intro a
    show ((self.step act).run rest).unfinishedOrFailed a = _
    rw [r4 a, s5 a, pushedAddrs_cons act rest, List.count_append]
    omega

/-- C9: take a newly constructed pipeline with any number of workers, give it a stage chain
whose last stage rejects every plan, and run any schedule that pushes pairwise distinct plan
instances and lets the workers dequeue and process-and-retire in any interleaving. Once the
queue is empty and no worker is busy, the success collection is empty, the solution callback
has never been invoked, the failure collection holds every pushed instance exactly once and
nothing else, and every plan in it is as the stage that rejected it left it (so it carries
the error code of the rejecting stage). -/
theorem C9_all_plans_fail {σ : Type} (name : String) (nthreads : Nat) (world : σ)
    (chain : List (ManipulationStagePtr σ)) (hne : chain ≠ [])
    (hrej : ∀ (w : σ) (p : ManipulationPlan), ((chain.getLast hne).evaluate w p).1 = false)
    (acts : List (Action σ)) (hwork : workOnly acts = true)
    (hset : (pushedAddrs acts).Nodup)
    (hqueue : (((ManipulationPipeline.new name nthreads world).addStages chain).run
      acts).queue_ = [])
    (hidle : (((ManipulationPipeline.new name nthreads world).addStages chain).run
      acts).in_flight = []) :
    (((ManipulationPipeline.new name nthreads world).addStages chain).run acts).success_ = [] ∧
    (((ManipulationPipeline.new name nthreads world).addStages chain).run
      acts).solution_callback_calls = 0 ∧
    (addrs (((ManipulationPipeline.new name nthreads world).addStages chain).run
      acts).failed_).Perm (pushedAddrs acts) ∧
    (∀ a ∈ pushedAddrs acts,
      (addrs (((ManipulationPipeline.new name nthreads world).addStages chain).run
        acts).failed_).count a = 1) ∧
    (∀ f ∈ (((ManipulationPipeline.new name nthreads world).addStages chain).run acts).failed_,
      ∃ stage ∈ chain, ∃ (w : σ) (p : ManipulationPlan),
        (stage.evaluate w p).1 = false ∧ f.obj = (stage.evaluate w p).2.1 ∧
        f.obj.error_code_ = (stage.evaluate w p).2.1.error_code_) := by
  have hstart : (ManipulationPipeline.new name nthreads world).addStages chain =
      { ManipulationPipeline.new name nthreads world with stages_ := chain } := by
    rw [addStages_eq]; simp [ManipulationPipeline.new]
  obtain ⟨r1, r2, r3, r4⟩ := run_workOnly chain (processStages_last_rejects chain hne hrej) acts
    ((ManipulationPipeline.new name nthreads world).addStages chain) hwork
    (by rw [hstart]) (by rw [hstart]; rfl) (by rw [hstart]; rfl)
    (by rw [hstart]; intro f hf; simp [ManipulationPipeline.new] at hf)
  have hcount : ∀ a,
      (addrs (((ManipulationPipeline.new name nthreads world).addStages chain).run
        acts).failed_).count a = (pushedAddrs acts).count a := by
    intro a
    have h0 : ((ManipulationPipeline.new name nthreads world).addStages
        chain).unfinishedOrFailed a = 0 := by
      rw [hstart]
      simp [ManipulationPipeline.unfinishedOrFailed, ManipulationPipeline.new, addrs,
        ManipulationPipeline.inFlightAddrs]
    have h := r4 a
    rw [h0] at h
    simp only [ManipulationPipeline.unfinishedOrFailed, ManipulationPipeline.inFlightAddrs,
      hqueue, hidle] at h
    simpa [addrs] using h
  refine ⟨r1, r2, List.perm_iff_count.mpr hcount, ?_, ?_⟩
  · intro a ha
    rw [hcount a]
    exact List.count_eq_one_of_mem hset ha
  · intro f hf
    obtain ⟨stage, hmem, w, p, hno, hplan⟩ := r3 f hf
    exact ⟨stage, hmem, w, p, hno, hplan, by rw [hplan]⟩

set_option maxRecDepth 100000 in
/-- Witness for C9: the scenario of the spec, ten plans, four workers, the chain
[alwaysAccept, alwaysReject]; every plan ends in the failure collection with the error code
of the rejecting stage. -/
theorem C9_all_plans_fail_witness :
    (pushedAddrs scenarioSchedule = [1, 2, 3, 4, 5, 6, 7, 8, 9, 10] ∧
     (scenarioPipeline.run scenarioSchedule).queue_ = [] ∧
     (scenarioPipeline.run scenarioSchedule).in_flight = []) ∧
    (addrs (scenarioPipeline.run scenarioSchedule).failed_ =
       [3, 1, 4, 2, 8, 5, 7, 6, 9, 10] ∧
     (scenarioPipeline.run scenarioSchedule).failed_.map (fun f => f.obj.error_code_.val) =
       List.replicate 10 (-7)) ∧
    (scenarioPipeline.run scenarioSchedule).success_ = [] ∧
    (scenarioPipeline.run scenarioSchedule).solution_callback_calls = 0 ∧
    (addrs (scenarioPipeline.run scenarioSchedule).failed_).Perm (pushedAddrs scenarioSchedule) ∧
    (∀ a ∈ pushedAddrs scenarioSchedule,
      (addrs (scenarioPipeline.run scenarioSchedule).failed_).count a = 1) :=
  have h := C9_all_plans_fail "pick" 4 (0 : Nat) [alwaysAccept, alwaysReject (-7)]
    (by simp) (fun _ _ => rfl) scenarioSchedule (by decide) (by decide) (by decide) (by decide)
  ⟨⟨by decide, by decide, by decide⟩, ⟨by decide, by decide⟩, h.1, h.2.1, h.2.2.1, h.2.2.2.1⟩

/-! ## Theorems: PlanStage, stopping and outcomes -/

theorem signalStop_iterate (self : PlanStage) (n : Nat) :
    (PlanStage.signalStop^[n] self).name_ = self.name_ ∧
    (PlanStage.signalStop^[n] self).planning_scene_ = self.planning_scene_ ∧
    (PlanStage.signalStop^[n] self).planning_pipeline_.respond =
      self.planning_pipeline_.respond ∧
    (PlanStage.signalStop^[n] self).planning_pipeline_.calls =
      self.planning_pipeline_.calls ++ List.replicate n PlannerCall.terminate ∧
    (0 < n → (PlanStage.signalStop^[n] self).signal_stop_ = true) := by
  induction n with
  | zero => simp
  | succ k ih =>
    obtain ⟨h1, h2, h3, h4, _⟩ := ih
    rw [Function.iterate_succ_apply']
    refine ⟨h1, h2, h3, ?_, fun _ => rfl⟩
    show (PlanStage.signalStop^[k] self).planning_pipeline_.calls ++ [PlannerCall.terminate] = _
    rw [h4, List.replicate_succ', List.append_assoc]

theorem evaluate_of_stopped (self : PlanStage) (now : Int) (plan : ManipulationPlan)
    (h : self.signal_stop_ = true) :
    (self.evaluate now plan).accepted = false ∧
    (self.evaluate now plan).plan = { plan with error_code_ := {} } ∧
    (self.evaluate now plan).planning_pipeline = self.planning_pipeline_ := by
  have hacc : (self.evaluate now plan).accepted = false := by
    rw [evaluate_accepted_eq, condition_of_stopped self now plan h]
  refine ⟨hacc, ?_, ?_⟩
  · rw [evaluate_of_rejected self now plan hacc, condition_of_stopped self now plan h]
  · rw [evaluate_pipeline_eq, condition_of_stopped self now plan h]

/-- C11: `signalStop` is total, and calling it n + 1 times on a stage in any state (also one
on which `evaluate` has never run) leaves the members of the stage as one call leaves them:
the stop flag is set, the name and the scene are as before, and the stage refers to the same
planner. The planning pipeline has received one `terminate` per call. Every later
`evaluate` rejects and leaves the plan as it would after a single call. -/
theorem C11_signalStop_idempotent (self : PlanStage) (n : Nat) :
    (PlanStage.signalStop^[n + 1] self).toManipulationStage =
      self.signalStop.toManipulationStage ∧
    (PlanStage.signalStop^[n + 1] self).signal_stop_ = true ∧
    (PlanStage.signalStop^[n + 1] self).planning_scene_ = self.signalStop.planning_scene_ ∧
    (PlanStage.signalStop^[n + 1] self).planning_pipeline_.respond =
      self.signalStop.planning_pipeline_.respond ∧
    (PlanStage.signalStop^[n + 1] self).planning_pipeline_.calls =
      self.planning_pipeline_.calls ++ List.replicate (n + 1) PlannerCall.terminate ∧
    (∀ (now : Int) (plan : ManipulationPlan),
      ((PlanStage.signalStop^[n + 1] self).evaluate now plan).accepted = false ∧
      ((PlanStage.signalStop^[n + 1] self).evaluate now plan).plan =
        (self.signalStop.evaluate now plan).plan) ∧
    PlanStage.signalStop (PlanStage.new {} (constantPlanner true successResponse)) =
      { PlanStage.new {} (constantPlanner true successResponse) with
        signal_stop_ := true
        planning_pipeline_ :=
          { constantPlanner true successResponse with calls := [PlannerCall.terminate] } } := by
  obtain ⟨h1, h2, h3, h4, h5⟩ := signalStop_iterate self (n + 1)
  have hflag := h5 (Nat.succ_pos n)
  refine ⟨?_, hflag, h2, h3, h4, ?_, rfl⟩
  · have hname : (PlanStage.signalStop^[n + 1] self).toManipulationStage.name_ =
        self.signalStop.toManipulationStage.name_ := h1
    have hstop : (PlanStage.signalStop^[n + 1] self).toManipulationStage.signal_stop_ =
        self.signalStop.toManipulationStage.signal_stop_ := hflag
    cases hm : (PlanStage.signalStop^[n + 1] self).toManipulationStage
    cases ho : self.signalStop.toManipulationStage
    rw [hm, ho] at hname hstop
    simp at hname hstop
    simp [hname, hstop]
  · intro now plan
    obtain ⟨a1, a2, _⟩ := evaluate_of_stopped (PlanStage.signalStop^[n + 1] self) now plan hflag
    obtain ⟨_, b2, _⟩ := evaluate_of_stopped self.signalStop now plan rfl
    exact ⟨a1, by rw [a2, b2]⟩

/-- C16: `clear()` leaves the pending queue empty and leaves the success collection, the
failure collection and the stage chain as they were; the plans held by busy workers and the
count of solution callbacks are untouched too. -/
theorem C16_clear_frame {σ : Type} (self : ManipulationPipeline σ) :
    self.clear.queue_ = [] ∧
    self.clear.success_ = self.success_ ∧
    self.clear.failed_ = self.failed_ ∧
    self.clear.stages_ = self.stages_ ∧
    self.clear.in_flight = self.in_flight ∧
    self.clear.solution_callback_calls = self.solution_callback_calls ∧
    self.step Action.clear = self.clear :=
  ⟨rfl, rfl, rfl, rfl, rfl, rfl, rfl⟩

/-- C17: `evaluate` keeps the trajectories and their descriptions parallel: if both lists have
the same length before the call they have the same length after it; on acceptance both grow
by one, on rejection both are unchanged. -/
theorem C17_parallel_lengths (self : PlanStage) (now : Int) (plan : ManipulationPlan)
    (h : plan.trajectories_.length = plan.trajectory_descriptions_.length) :
    (self.evaluate now plan).plan.trajectories_.length =
      (self.evaluate now plan).plan.trajectory_descriptions_.length ∧
    ((self.evaluate now plan).accepted = true →
      (self.evaluate now plan).plan.trajectories_.length = plan.trajectories_.length + 1 ∧
      (self.evaluate now plan).plan.trajectory_descriptions_.length =
        plan.trajectory_descriptions_.length + 1) ∧
    ((self.evaluate now plan).accepted = false →
      (self.evaluate now plan).plan.trajectories_ = plan.trajectories_ ∧
      (self.evaluate now plan).plan.trajectory_descriptions_ =
        plan.trajectory_descriptions_) := by
  cases hacc : (self.evaluate now plan).accepted
  · rw [evaluate_of_rejected self now plan hacc]
    exact ⟨h, fun hc => absurd hc (by simp), fun _ => ⟨rfl, rfl⟩⟩
  · rw [evaluate_of_accepted self now plan hacc]
    refine ⟨by simp [h], fun _ => ⟨by simp, by simp⟩, fun hc => absurd hc (by simp)⟩

/-- Witness for C17: an accepting and a rejecting stage on a plan with one trajectory and one
description. -/
theorem C17_parallel_lengths_witness :
    startedPlan.trajectories_.length = startedPlan.trajectory_descriptions_.length ∧
    (succeedingStage.evaluate 0 startedPlan).plan.trajectories_.length = 2 ∧
    (succeedingStage.evaluate 0 startedPlan).plan.trajectories_.length =
      (succeedingStage.evaluate 0 startedPlan).plan.trajectory_descriptions_.length :=
  ⟨rfl, rfl, (C17_parallel_lengths succeedingStage 0 startedPlan rfl).1⟩

/-- C18: for every plan and every outcome, `evaluate` leaves the planning group, the deadline
and the approach state of the plan unchanged; the request it builds names the planning group
of the plan, and that request is the one handed to the planner whenever the planner is
invoked. -/
theorem C18_evaluate_frame (self : PlanStage) (now : Int) (plan : ManipulationPlan) :
    (self.evaluate now plan).plan.planning_group_ = plan.planning_group_ ∧
    (self.evaluate now plan).plan.timeout_ = plan.timeout_ ∧
    (self.evaluate now plan).plan.approach_state_ = plan.approach_state_ ∧
    (PlanStage.request now plan).group_name = plan.planning_group_ ∧
    (self.signal_stop_ = false →
      (self.evaluate now plan).planning_pipeline.calls =
        self.planning_pipeline_.calls ++
          [PlannerCall.generatePlan self.planning_scene_ (PlanStage.request now plan)]) := by
  refine ⟨?_, ?_, ?_, rfl, ?_⟩
  · cases hacc : (self.evaluate now plan).accepted
    · rw [evaluate_of_rejected self now plan hacc]
    · rw [evaluate_of_accepted self now plan hacc]
  · cases hacc : (self.evaluate now plan).accepted
    · rw [evaluate_of_rejected self now plan hacc]
    · rw [evaluate_of_accepted self now plan hacc]
  · cases hacc : (self.evaluate now plan).accepted
    · rw [evaluate_of_rejected self now plan hacc]
    · rw [evaluate_of_accepted self now plan hacc]
  · intro h
    rw [evaluate_pipeline_eq, condition_of_running self now plan h]
    rfl

/-- C19: `evaluate` returns true if and only if the stop flag is unset, `generatePlan`
returned true and the response status is SUCCESS; in particular a planner that returns true
with a status other than SUCCESS, and a planner that returns false with status SUCCESS, are
both rejected. -/
theorem C19_accept_iff (self : PlanStage) (now : Int) (plan : ManipulationPlan) :
    ((self.evaluate now plan).accepted = true ↔
      (self.signal_stop_ = false ∧ (self.plannerOutcome now plan).ok = true ∧
        (self.plannerOutcome now plan).res.error_code.val = MoveItErrorCodes.SUCCESS)) ∧
    ((self.plannerOutcome now plan).ok = true →
      (self.plannerOutcome now plan).res.error_code.val ≠ MoveItErrorCodes.SUCCESS →
      (self.evaluate now plan).accepted = false) ∧
    ((self.plannerOutcome now plan).ok = false →
      (self.plannerOutcome now plan).res.error_code.val = MoveItErrorCodes.SUCCESS →
      (self.evaluate now plan).accepted = false) ∧
    (trueWithFailureStage.evaluate now plan).accepted = false ∧
    (falseWithSuccessStage.evaluate now plan).accepted = false := by
  have key : (self.evaluate now plan).accepted = true ↔
      (self.signal_stop_ = false ∧ (self.plannerOutcome now plan).ok = true ∧
        (self.plannerOutcome now plan).res.error_code.val = MoveItErrorCodes.SUCCESS) := by
    rw [evaluate_accepted_eq]
    cases hs : self.signal_stop_
    · rw [condition_of_running self now plan hs]
      simp
    · rw [condition_of_stopped self now plan hs]
      simp
  refine ⟨key, ?_, ?_, rfl, rfl⟩
  · intro _ hne
    cases hacc : (self.evaluate now plan).accepted
    · rfl
    · exact absurd (key.mp hacc).2.2 hne
  · intro hok _
    cases hacc : (self.evaluate now plan).accepted
    · rfl
    · have := (key.mp hacc).2.1
      rw [hok] at this
      exact absurd this (by simp)

/-- C12, as stated, fails: a stopped stage leaves status 0 on the plan, and so does a stage
whose planner was invoked, returned false and left the response record untouched; the two
error codes are equal, so the caller cannot tell "aborted" from "tried and failed". -/
theorem C12_counterexample :
    stoppedStage.signal_stop_ = true ∧
    (stoppedStage.evaluate 0 freshPlan).accepted = false ∧
    (stoppedStage.evaluate 0 freshPlan).planning_pipeline.calls = [] ∧
    silentFailingStage.signal_stop_ = false ∧
    (silentFailingStage.evaluate 0 freshPlan).accepted = false ∧
    (silentFailingStage.evaluate 0 freshPlan).planning_pipeline.calls =
      [PlannerCall.generatePlan {} (PlanStage.request 0 freshPlan)] ∧
    (stoppedStage.evaluate 0 freshPlan).plan.error_code_ =
      (silentFailingStage.evaluate 0 freshPlan).plan.error_code_ :=
  ⟨rfl, rfl, rfl, rfl, rfl, rfl, rfl⟩

/-- C12, amended: when `evaluate` rejects because the stop flag was set, the error code it
leaves is the status of a default-constructed response (0), whatever the plan and the time;
it differs from the error code left by a stage whose planner was invoked and failed exactly
when the status that planner reported is not 0. The stage sets no status of its own for
cancellation. -/
theorem C12_cancellation_code (stopped tried : PlanStage) (now1 now2 : Int)
    (plan1 plan2 : ManipulationPlan)
    (hstop : stopped.signal_stop_ = true)
    (hrun : tried.signal_stop_ = false)
    (hrej : (tried.evaluate now2 plan2).accepted = false) :
    (stopped.evaluate now1 plan1).accepted = false ∧
    (stopped.evaluate now1 plan1).plan.error_code_.val = 0 ∧
    ((stopped.evaluate now1 plan1).plan.error_code_ ≠
        (tried.evaluate now2 plan2).plan.error_code_ ↔
      (tried.plannerOutcome now2 plan2).res.error_code.val ≠ 0) := by
  obtain ⟨a1, a2, _⟩ := evaluate_of_stopped stopped now1 plan1 hstop
  refine ⟨a1, by rw [a2], ?_⟩
  rw [a2, evaluate_of_rejected tried now2 plan2 hrej, condition_of_running tried now2 plan2 hrun]
  simp only []
  cases hc : (tried.plannerOutcome now2 plan2).res.error_code with
  | mk v =>
    constructor
    · intro hne hv
      apply hne
      simp at hv
      rw [hv]
    · intro hv heq
      apply hv
      simp at heq
      simp [← heq]

/-- Witness for C12 as amended: a stopped stage against a stage whose planner fails with
status FAILURE. -/
theorem C12_cancellation_code_witness :
    (stoppedStage.evaluate 0 freshPlan).plan.error_code_.val = 0 ∧
    (failingStage.evaluate 0 freshPlan).plan.error_code_.val = MoveItErrorCodes.FAILURE ∧
    (stoppedStage.evaluate 0 freshPlan).plan.error_code_ ≠
      (failingStage.evaluate 0 freshPlan).plan.error_code_ :=
  ⟨rfl, rfl,
   (C12_cancellation_code stoppedStage failingStage 0 0 freshPlan freshPlan rfl rfl rfl).2.2.mpr
     (by decide)⟩

/-- C13, as stated, fails: a planner that returns false while the response it leaves has
status SUCCESS makes `evaluate` return false with error code SUCCESS on the plan. -/
theorem C13_counterexample :
    (falseWithSuccessStage.plannerOutcome 0 freshPlan).ok = false ∧
    (falseWithSuccessStage.evaluate 0 freshPlan).accepted = false ∧
    (falseWithSuccessStage.evaluate 0 freshPlan).plan.error_code_.val =
      MoveItErrorCodes.SUCCESS :=
  ⟨rfl, rfl, rfl⟩

/-- C13, amended: whenever `evaluate` returns false, the error code it leaves on the plan is
the status of the response record of that call; it is SUCCESS exactly when the stop flag was
unset and the planner returned false while reporting status SUCCESS. In every other rejection
(stop flag set, or a reported status other than SUCCESS) it is not SUCCESS. -/
theorem C13_rejection_code (self : PlanStage) (now : Int) (plan : ManipulationPlan)
    (hrej : (self.evaluate now plan).accepted = false) :
    ((self.evaluate now plan).plan.error_code_.val = MoveItErrorCodes.SUCCESS ↔
      (self.signal_stop_ = false ∧ (self.plannerOutcome now plan).ok = false ∧
        (self.plannerOutcome now plan).res.error_code.val = MoveItErrorCodes.SUCCESS)) ∧
    (self.signal_stop_ = true → (self.evaluate now plan).plan.error_code_.val = 0) := by
  have hcond : (self.condition now plan).ok = false := by
    rw [← evaluate_accepted_eq]; exact hrej
  rw [evaluate_error_code_eq]
  cases hs : self.signal_stop_
  · rw [condition_of_running self now plan hs] at hcond ⊢
    simp only [] at hcond ⊢
    refine ⟨?_, fun h => absurd h (by simp)⟩
    constructor
    · intro hv
      refine ⟨by simp, ?_, hv⟩
      cases hok : (self.plannerOutcome now plan).ok
      · rfl
      · rw [hok, hv] at hcond
        simp at hcond
    · intro h
      exact h.2.2
  · rw [condition_of_stopped self now plan hs]
    refine ⟨?_, fun _ => rfl⟩
    constructor
    · intro hv
      simp [MoveItErrorCodes.SUCCESS] at hv
    · intro h
      exact absurd h.1 (by simp)

/-- Witness for C13 as amended: a planner failing with status FAILURE leaves a code that is
not SUCCESS. -/
theorem C13_rejection_code_witness :
    (failingStage.evaluate 0 freshPlan).accepted = false ∧
    ¬ (failingStage.evaluate 0 freshPlan).plan.error_code_.val = MoveItErrorCodes.SUCCESS :=
  ⟨rfl, fun h =>
    absurd ((C13_rejection_code failingStage 0 freshPlan rfl).1.mp h).2.2 (by decide)⟩

/-! ## Theorems: benchmark log names -/

theorem lastIndex_cons (c x : Char) (xs : List Char) (i : Nat) :
    lastIndex c (x :: xs) i =
      match lastIndex c xs (i + 1) with
      | some j => some j
      | none => if x = c then some i else none := rfl

theorem firstIndex_cons (c x : Char) (xs : List Char) (i : Nat) :
    firstIndex c (x :: xs) i = if x = c then some i else firstIndex c xs (i + 1) := rfl

theorem lastIndex_of_not_mem (c : Char) :
    ∀ (s : List Char) (i : Nat), c ∉ s → lastIndex c s i = none := by
  intro s
  induction s with
  | nil => intro i _; rfl
  | cons x xs ih =>
    intro i h
    simp only [List.mem_cons, not_or] at h
    have hx : ¬ x = c := fun e => h.1 e.symm
    simp [lastIndex, ih (i + 1) h.2, hx]

theorem lastIndex_append (c : Char) (post : List Char) (hpost : c ∉ post) :
    ∀ (pre : List Char) (i : Nat),
      lastIndex c (pre ++ c :: post) i = some (i + pre.length) := by
  intro pre
  induction pre with
  | nil => intro i; simp [lastIndex, lastIndex_of_not_mem c post (i + 1) hpost]
  | cons x xs ih =>
    intro i
    rw [List.cons_append, lastIndex_cons, ih (i + 1), List.length_cons]
    exact congrArg some (by omega)

theorem firstIndex_append (c : Char) (post : List Char) :
    ∀ (pre : List Char) (i : Nat), c ∉ pre →
      firstIndex c (pre ++ c :: post) i = some (i + pre.length) := by
  intro pre
  induction pre with
  | nil => intro i _; simp [firstIndex]
  | cons x xs ih =>
    intro i h
    simp only [List.mem_cons, not_or] at h
    have hx : ¬ x = c := fun e => h.1 e.symm
    rw [List.cons_append, firstIndex_cons, if_neg hx, ih (i + 1) h.2, List.length_cons]
    exact congrArg some (by omega)

theorem digitChar_ne (d : Nat) (h : d < 10) :
    Nat.digitChar d ≠ '.' ∧ Nat.digitChar d ≠ '_' := by
  interval_cases d <;> decide

theorem toDigitsCore_mem (fuel : Nat) :
    ∀ (n : Nat) (ds : List Char) (c : Char), c ∈ Nat.toDigitsCore 10 fuel n ds →
      c ∈ ds ∨ ∃ d, d < 10 ∧ c = Nat.digitChar d := by
  induction fuel with
  | zero => intro n ds c h; exact Or.inl h
  | succ f ih =>
    intro n ds c h
    unfold Nat.toDigitsCore at h
    by_cases hz : n / 10 = 0
    · simp only [hz, if_true, List.mem_cons] at h
      rcases h with h | h
      · exact Or.inr ⟨n % 10, Nat.mod_lt _ (by decide), h⟩
      · exact Or.inl h
    · simp only [hz, if_false] at h
      rcases ih _ _ c h with h | h
      · simp only [List.mem_cons] at h
        rcases h with h | h
        · exact Or.inr ⟨n % 10, Nat.mod_lt _ (by decide), h⟩
        · exact Or.inl h
      · exact Or.inr h

theorem toDigits_no_separator (n : Nat) :
    '.' ∉ Nat.toDigits 10 n ∧ '_' ∉ Nat.toDigits 10 n := by
  constructor
  · intro h
    rcases toDigitsCore_mem _ _ _ _ h with h | ⟨d, hd, h⟩
    · simp at h
    · exact (digitChar_ne d hd).1 h.symm
  · intro h
    rcases toDigitsCore_mem _ _ _ _ h with h | ⟨d, hd, h⟩
    · simp at h
    · exact (digitChar_ne d hd).2 h.symm

theorem logNameParts_of_form (B N T : List Char) (hN : '.' ∉ N) (hN2 : '_' ∉ N)
    (hT : '.' ∉ T)
    (hlen : (B ++ ['.'] ++ N ++ ['_'] ++ T ++ ['.', 'l', 'o', 'g']).length <
      18446744073709551616) :
    logNameParts (B ++ ['.'] ++ N ++ ['_'] ++ T ++ ['.', 'l', 'o', 'g']) =
      some { logid := N ++ '_' :: T, basename := B, logid_text := '_' :: T } := by
  have hM : '.' ∉ N ++ '_' :: T := by
    simp only [List.mem_append, List.mem_cons, not_or]
    exact ⟨hN, by decide, hT⟩
  have hfile : B ++ ['.'] ++ N ++ ['_'] ++ T ++ ['.', 'l', 'o', 'g'] =
      (B ++ '.' :: (N ++ '_' :: T)) ++ '.' :: ['l', 'o', 'g'] := by simp
  rw [hfile] at hlen ⊢
  have hl : ((B ++ '.' :: (N ++ '_' :: T)) ++ '.' :: ['l', 'o', 'g']).length =
      B.length + N.length + T.length + 6 := by
    simp only [List.length_append, List.length_cons, List.length_nil]; omega
  rw [hl] at hlen
  have hdot : find_last_of ((B ++ '.' :: (N ++ '_' :: T)) ++ '.' :: ['l', 'o', 'g']) '.'
      (sizeSub ((B ++ '.' :: (N ++ '_' :: T)) ++ '.' :: ['l', 'o', 'g']).length 5) =
      B.length := by
    have hpos : sizeSub ((B ++ '.' :: (N ++ '_' :: T)) ++ '.' :: ['l', 'o', 'g']).length 5 + 1 =
        (B ++ '.' :: (N ++ '_' :: T)).length := by
      rw [hl]
      simp only [sizeSub, List.length_append, List.length_cons]
      omega
    unfold find_last_of
    rw [hpos, List.take_left' rfl, lastIndex_append '.' _ hM]
    simp
  have hlast : find_last_of ((B ++ '.' :: (N ++ '_' :: T)) ++ '.' :: ['l', 'o', 'g']) '.' npos =
      (B ++ '.' :: (N ++ '_' :: T)).length := by
    unfold find_last_of
    rw [List.take_of_length_le (by rw [hl]; simp only [npos]; omega),
      lastIndex_append '.' ['l', 'o', 'g'] (by decide)]
    simp
  have hlogid : substr ((B ++ '.' :: (N ++ '_' :: T)) ++ '.' :: ['l', 'o', 'g'])
      (sizeAdd B.length 1) (sizeSub (sizeSub (B ++ '.' :: (N ++ '_' :: T)).length B.length) 1) =
      some (N ++ '_' :: T) := by
    have h1 : sizeAdd B.length 1 = (B ++ ['.']).length := by
      simp only [sizeAdd, List.length_append, List.length_cons, List.length_nil]; omega
    have h2 : sizeSub (sizeSub (B ++ '.' :: (N ++ '_' :: T)).length B.length) 1 =
        (N ++ '_' :: T).length := by
      simp only [sizeSub, List.length_append, List.length_cons]; omega
    have h3 : (B ++ '.' :: (N ++ '_' :: T)) ++ '.' :: ['l', 'o', 'g'] =
        (B ++ ['.']) ++ ((N ++ '_' :: T) ++ '.' :: ['l', 'o', 'g']) := by simp
    rw [h1, h2, h3]
    unfold substr
    rw [if_neg (by simp only [List.length_append]; omega), List.drop_left' rfl,
      List.take_left' rfl]
  have hbase : substr ((B ++ '.' :: (N ++ '_' :: T)) ++ '.' :: ['l', 'o', 'g']) 0 B.length =
      some B := by
    unfold substr
    rw [if_neg (by omega), List.drop_zero, List.append_assoc, List.take_left' rfl]
  have hfirst : find_first_of (N ++ '_' :: T) '_' = N.length := by
    unfold find_first_of
    rw [firstIndex_append '_' T N 0 hN2]
    simp
  have htext : substr (N ++ '_' :: T) N.length (sizeSub (N ++ '_' :: T).length N.length) =
      some ('_' :: T) := by
    have h2 : sizeSub (N ++ '_' :: T).length N.length = ('_' :: T).length := by
      simp only [sizeSub, List.length_append, List.length_cons]; omega
    rw [h2]
    unfold substr
    rw [if_neg (by simp only [List.length_append]; omega), List.drop_left' rfl,
      List.take_of_length_le (Nat.le_refl _)]
  unfold logNameParts
  simp only [hdot, hlast, hlogid, hbase, hfirst, htext]

/-- C20: for every selected path of the form B.N_T.log, where N is the decimal representation
of a positive integer n (no leading zero) and T holds no '.', the `try` block of
`computeLoadBenchmarkResults` does not throw and derives logid = N_T, basename = B and
logid_text = _T, and the candidate file name built for count = n from these parts is the
selected path. -/
theorem C20_log_name_round_trip (B T : List Char) (n : Nat) (hpos : 0 < n) (hT : '.' ∉ T)
    (hlen : (logPath B n T).length < 18446744073709551616) :
    logNameParts (logPath B n T) =
      some { logid := Nat.toDigits 10 n ++ '_' :: T, basename := B, logid_text := '_' :: T } ∧
    file_to_load B (n : Int) ('_' :: T) = logPath B n T ∧
    (∀ parts, logNameParts (logPath B n T) = some parts →
      file_to_load parts.basename (n : Int) parts.logid_text = logPath B n T) := by
  have hparts := logNameParts_of_form B (Nat.toDigits 10 n) T (toDigits_no_separator n).1
    (toDigits_no_separator n).2 hT hlen
  have hround : file_to_load B (n : Int) ('_' :: T) = logPath B n T := by
    have hneg : ¬ ((n : Int) < 0) := by omega
    simp [file_to_load, logPath, formatInt, hneg]
  refine ⟨hparts, hround, ?_⟩
  intro parts h
  rw [show logNameParts (logPath B n T) = _ from hparts] at h
  cases h
  exact hround

/-- Witness for C20: the path "/tmp/run.12_scene.log". -/
theorem C20_log_name_round_trip_witness :
    logPath "/tmp/run".toList 12 "scene".toList = "/tmp/run.12_scene.log".toList ∧
    logNameParts "/tmp/run.12_scene.log".toList =
      some { logid := "12_scene".toList, basename := "/tmp/run".toList,
             logid_text := "_scene".toList } ∧
    file_to_load "/tmp/run".toList 12 "_scene".toList = "/tmp/run.12_scene.log".toList :=
  ⟨by decide,
   (C20_log_name_round_trip "/tmp/run".toList "scene".toList 12 (by decide) (by decide)
     (by decide)).1,
   (C20_log_name_round_trip "/tmp/run".toList "scene".toList 12 (by decide) (by decide)
     (by decide)).2.1⟩

/-! ## Theorems: ApproachAndTranslateStage -/

theorem attemptStep_all_fail (services : ApproachServices)
    (hfail : ∀ a, services.solve a = none) :
    ∀ (tolerance attempt : Nat),
      attemptStep services tolerance attempt = (none, attempt + tolerance) := by
  intro tolerance
  induction tolerance with
  | zero => intro attempt; rfl
  | succ t ih =>
    intro attempt
    simp only [attemptStep, hfail attempt, ih (attempt + 1)]
    exact congrArg (Prod.mk none) (by omega)

/-- C14: for an approach stage with `max_fail_ = k` and a path of at least one step, if
inverse kinematics fails on every request, `evaluate` returns false, leaves the trajectories
and their descriptions of the plan as they were, and sets an error code other than SUCCESS;
with the stop flag unset it rejects as soon as k consecutive failures have occurred: exactly k
requests were made (3 for `max_fail_ = 3`), and the code is PLANNING_FAILED. -/
theorem C14_reject_after_max_fail (self : ApproachAndTranslateStage)
    (services : ApproachServices) (task : ApproachTask) (plan : ManipulationPlan)
    (hsteps : 0 < task.increments) (hfail : ∀ a, services.solve a = none) :
    (self.evaluate services task plan).accepted = false ∧
    (self.evaluate services task plan).plan.trajectories_ = plan.trajectories_ ∧
    (self.evaluate services task plan).plan.trajectory_descriptions_ =
      plan.trajectory_descriptions_ ∧
    (self.evaluate services task plan).plan.error_code_.val ≠ MoveItErrorCodes.SUCCESS ∧
    (self.signal_stop_ = false →
      (self.evaluate services task plan).attempts = self.max_fail_ ∧
      (self.evaluate services task plan).plan.error_code_.val =
        MoveItErrorCodes.PLANNING_FAILED) := by
  obtain ⟨r, hr⟩ : ∃ r, task.increments = r + 1 := ⟨task.increments - 1, by omega⟩
  cases hs : self.signal_stop_
  · have hi : self.interpolate services task.stop_at_goal_count task.increments 0 [] =
        { outcome := .rejected, waypoints := [], attempts := self.max_fail_ } := by
      rw [hr]
      simp [ApproachAndTranslateStage.interpolate, hs,
        attemptStep_all_fail services hfail self.max_fail_ 0]
    simp [ApproachAndTranslateStage.evaluate, hi, MoveItErrorCodes.PLANNING_FAILED,
      MoveItErrorCodes.SUCCESS]
  · have hi : self.interpolate services task.stop_at_goal_count task.increments 0 [] =
        { outcome := .cancelled, waypoints := [], attempts := 0 } := by
      rw [hr]
      simp [ApproachAndTranslateStage.interpolate, hs]
    simp [ApproachAndTranslateStage.evaluate, hi, MoveItErrorCodes.PREEMPTED,
      MoveItErrorCodes.SUCCESS]

/-- Witness for C14: the stage of the scenario (`max_fail_ = 3`) on a path of five steps with
inverse kinematics failing on every request; the same stage accepts with five waypoints when
every request succeeds. -/
theorem C14_reject_after_max_fail_witness :
    (scenarioApproachStage.evaluate failingServices { increments := 5 } startedPlan).accepted =
      false ∧
    (scenarioApproachStage.evaluate failingServices { increments := 5 } startedPlan).attempts =
      3 ∧
    (scenarioApproachStage.evaluate failingServices
      { increments := 5 } startedPlan).plan.trajectories_ = startedPlan.trajectories_ ∧
    (scenarioApproachStage.evaluate succeedingServices
      { increments := 5 } startedPlan).accepted = true ∧
    (scenarioApproachStage.interpolate succeedingServices false 5 0 []).waypoints.length = 5 :=
  ⟨(C14_reject_after_max_fail scenarioApproachStage failingServices { increments := 5 }
      startedPlan (by decide) (fun _ => rfl)).1,
   ((C14_reject_after_max_fail scenarioApproachStage failingServices { increments := 5 }
      startedPlan (by decide) (fun _ => rfl)).2.2.2.2 rfl).1,
   (C14_reject_after_max_fail scenarioApproachStage failingServices { increments := 5 }
      startedPlan (by decide) (fun _ => rfl)).2.1,
   by decide, by decide⟩

/-! ## Theorems: benchmark results lines -/

theorem lexical_cast_bool_eq_true (c : Char) : lexical_cast_bool c = some true ↔ c = '1' := by
  unfold lexical_cast_bool
  by_cases h0 : c = '0'
  · subst h0; decide
  · by_cases h1 : c = '1'
    · subst h1; decide
    · simp [h0, h1]

theorem lexical_cast_bool_eq_false (c : Char) : lexical_cast_bool c = some false ↔ c = '0' := by
  unfold lexical_cast_bool
  by_cases h0 : c = '0'
  · subst h0; decide
  · by_cases h1 : c = '1'
    · subst h1; decide
    · simp [h0, h1]

theorem lexical_cast_bool_eq_none (c : Char) :
    lexical_cast_bool c = none ↔ ¬ (c = '0' ∨ c = '1') := by
  unfold lexical_cast_bool
  by_cases h0 : c = '0'
  · subst h0; decide
  · by_cases h1 : c = '1'
    · subst h1; decide
    · simp [h0, h1]

/-- C21: for a results line longer than 6 characters read from a good stream for log file
number count, with 1 <= count <= number of goal poses and the goal list holding an item
`goal` at row count - 1, where r is character 0 and c is character 3 of the line: exactly one
job is queued that marks `goal` REACHABLE iff r = '1' and c = '1', IN_COLLISION iff r = '1'
and c = '0', NOT_REACHABLE iff r = '0' and c is '0' or '1'; no job is queued iff r or c is a
character other than '0' and '1'. -/
theorem C21_results_line (text_line : List Char) (count : Int) (goal_poses_size : Nat)
    (goal_poses_list : List (List Char)) (goal : List Char)
    (hline : 6 < text_line.length) (hcount : 1 ≤ count) (hsize : count ≤ goal_poses_size)
    (hitem : itemText goal_poses_list (count - 1) = some goal) :
    (resultsLine text_line true count goal_poses_size goal_poses_list =
        some [{ name := goal, state := .REACHABLE }] ↔
      (text_line.getD 0 (Char.ofNat 0) = '1' ∧ text_line.getD 3 (Char.ofNat 0) = '1')) ∧
    (resultsLine text_line true count goal_poses_size goal_poses_list =
        some [{ name := goal, state := .IN_COLLISION }] ↔
      (text_line.getD 0 (Char.ofNat 0) = '1' ∧ text_line.getD 3 (Char.ofNat 0) = '0')) ∧
    (resultsLine text_line true count goal_poses_size goal_poses_list =
        some [{ name := goal, state := .NOT_REACHABLE }] ↔
      (text_line.getD 0 (Char.ofNat 0) = '0' ∧
        (text_line.getD 3 (Char.ofNat 0) = '0' ∨ text_line.getD 3 (Char.ofNat 0) = '1'))) ∧
    (resultsLine text_line true count goal_poses_size goal_poses_list = some [] ↔
      ¬ ((text_line.getD 0 (Char.ofNat 0) = '0' ∨ text_line.getD 0 (Char.ofNat 0) = '1') ∧
         (text_line.getD 3 (Char.ofNat 0) = '0' ∨ text_line.getD 3 (Char.ofNat 0) = '1'))) := by
  have hle : sizeOfInt count ≤ goal_poses_size := by
    unfold sizeOfInt
    omega
  unfold resultsLine
  generalize text_line.getD 0 (Char.ofNat 0) = r
  generalize text_line.getD 3 (Char.ofNat 0) = c
  have hr0 := lexical_cast_bool_eq_false r
  have hr1 := lexical_cast_bool_eq_true r
  have hrn := lexical_cast_bool_eq_none r
  have hc0 := lexical_cast_bool_eq_false c
  have hc1 := lexical_cast_bool_eq_true c
  have hcn := lexical_cast_bool_eq_none c
  simp only [Bool.true_and, decide_eq_true_eq, hline, if_true, hle, hitem]
  cases hr : lexical_cast_bool r with
  | none =>
    have hnr := hrn.mp hr
    simp only [not_or] at hnr
    simp [hnr.1, hnr.2]
  | some reachable =>
    cases hc : lexical_cast_bool c with
    | none =>
      have hnc := hcn.mp hc
      simp only [not_or] at hnc
      simp [hnc.1, hnc.2]
    | some collision_free =>
      cases reachable <;> cases collision_free
      · have e1 := hr0.mp hr
        have e2 := hc0.mp hc
        subst e1 e2
        simp
      · have e1 := hr0.mp hr
        have e2 := hc1.mp hc
        subst e1 e2
        simp
      · have e1 := hr1.mp hr
        have e2 := hc0.mp hc
        subst e1 e2
        simp
      · have e1 := hr1.mp hr
        have e2 := hc1.mp hc
        subst e1 e2
        simp

/-- Witness for C21: the line "1; 0; 0.25" of the second log file, with the goals "a" and "b"
listed: the goal "b" is marked IN_COLLISION, and running the job sets that state. -/
theorem C21_results_line_witness :
    resultsLine "1; 0; 0.25".toList true 2 2 [['a'], ['b']] =
      some [{ name := ['b'], state := .IN_COLLISION }] ∧
    ((twoGoalFrame.updateMarkerStateFromName ['b'] .IN_COLLISION).goal_poses_.find ['b']).map
      (fun marker => marker.state) = some .IN_COLLISION ∧
    resultsLine "1; x; 0.25".toList true 2 2 [['a'], ['b']] = some [] :=
  ⟨(C21_results_line "1; 0; 0.25".toList 2 2 [['a'], ['b']] ['b'] (by decide) (by decide)
      (by decide) (by decide)).2.1.mpr ⟨by decide, by decide⟩,
   by decide, by decide⟩

/-! ## Theorems: goal poses -/

theorem find_append_single (m : GoalPoseMap) (k : List Char) (v : GripperMarker)
    (name : List Char) :
    GoalPoseMap.find (m ++ [(k, v)]) name =
      match GoalPoseMap.find m name with
      | some x => some x
      | none => if k = name then some v else none := by
  induction m with
  | nil => simp [GoalPoseMap.find]
  | cons e rest ih =>
    by_cases h : e.1 = name
    · simp [GoalPoseMap.find, h]
    · simp only [List.cons_append, GoalPoseMap.find, h, if_false]
      exact ih

theorem find_erase (m : GoalPoseMap) (k name : List Char) :
    GoalPoseMap.find (GoalPoseMap.erase m k) name =
      if name = k then none else GoalPoseMap.find m name := by
  induction m with
  | nil => simp [GoalPoseMap.erase, GoalPoseMap.find]
  | cons e rest ih =>
    unfold GoalPoseMap.erase at ih ⊢
    by_cases hk : e.1 = k
    · rw [List.filter_cons_of_neg (by simp [hk]), ih]
      by_cases hn : name = k
      · simp [hn]
      · have : ¬ e.1 = name := fun h => hn (h ▸ hk)
        simp [hn, GoalPoseMap.find, this]
    · rw [List.filter_cons_of_pos (by simp [hk])]
      by_cases he : e.1 = name
      · have : ¬ name = k := fun h => hk (he.trans h)
        simp [GoalPoseMap.find, he, this]
      · simp only [GoalPoseMap.find, he, if_false]
        exact ih

theorem find_foldl_erase (selected : List (List Char)) :
    ∀ (m : GoalPoseMap) (name : List Char),
      GoalPoseMap.find (selected.foldl GoalPoseMap.erase m) name =
        if name ∈ selected then none else GoalPoseMap.find m name := by
  induction selected with
  | nil => intro m name; simp
  | cons k rest ih =>
    intro m name
    rw [List.foldl_cons, ih, find_erase]
    by_cases h1 : name ∈ rest
    · simp [h1]
    · by_cases h2 : name = k
      · simp [h2]
      · simp [h1, h2]

/-- C22: `createGoalPoseButtonClicked` adds a goal pose iff the name dialog was shown and
accepted with a non-empty name that is not already a key of `goal_poses_`. In that case
exactly that key is added, with a marker at the tip pose, every other entry is kept, and a
connected database receives one `addConstraints` for that name. Otherwise (the dialog is not
shown or is cancelled, the name is empty, or the name exists) the map and the database are
unchanged. The dialog is shown exactly when there are a planning scene and an active end
effector. -/
theorem C22_create_goal_pose (self : MotionPlanningFrame) (display : PlanningDisplay)
    (getText : List Char → Bool × List Char) :
    ((self.createGoalPoseButtonClicked display getText).frame.goal_poses_.size =
        self.goal_poses_.size + 1 ↔
      (self.createGoalPoseButtonClicked display getText).acceptedNewName self getText) ∧
    ((self.createGoalPoseButtonClicked display getText).acceptedNewName self getText →
      ∃ proposed, (self.createGoalPoseButtonClicked display getText).asked = some proposed ∧
        (self.createGoalPoseButtonClicked display getText).frame.goal_poses_ =
          self.goal_poses_ ++ [((getText proposed).2,
            { pose := display.tip_pose, state := .NOT_TESTED, selected := false,
              visible := true })] ∧
        (self.createGoalPoseButtonClicked display getText).frame.constraints_storage_ =
          self.constraints_storage_.map (fun storage =>
            { storage with calls := storage.calls ++ [StorageCall.addConstraints
              { name := (getText proposed).2, pose := display.tip_pose }] })) ∧
    (¬ (self.createGoalPoseButtonClicked display getText).acceptedNewName self getText →
      (self.createGoalPoseButtonClicked display getText).frame = self) ∧
    ((self.createGoalPoseButtonClicked display getText).asked.isSome ↔
      (display.scene_name.isSome ∧ display.active_end_effectors ≠ [])) := by
  unfold CreateGoalPose.acceptedNewName MotionPlanningFrame.createGoalPoseButtonClicked
  simp only [GoalPoseMap.size]
  cases hscene : display.scene_name with
  | none => simp
  | some scene =>
    by_cases heef : display.active_end_effectors = []
    · simp [heef]
    · simp only [heef, if_false]
      cases hok : (getText (poseName scene self.goal_poses_.length)).1
      · simp [hok, heef]
      · by_cases hempty : (getText (poseName scene self.goal_poses_.length)).2 = []
        · simp [hok, hempty, heef]
        · cases hfind : GoalPoseMap.find self.goal_poses_
              (getText (poseName scene self.goal_poses_.length)).2 with
          | some marker => simp [hok, hempty, hfind, heef]
          | none => simp [hok, hempty, hfind, heef, GoalPoseMap.insert]

/-- C24: `deleteGoalsOnDBButtonClicked` issues `removeConstraints` to the storage only when a
database is connected and the answer is Yes, then once per selected item and in their order;
for every answer, connected or not, no selected name remains in `goal_poses_` after the call
and every entry under a name that is not selected is kept. -/
theorem C24_delete_goals (self : MotionPlanningFrame) (answer : StandardButton)
    (selected : List (List Char)) :
    ((self.deleteGoalsOnDBButtonClicked answer selected).constraints_storage_ =
      self.constraints_storage_.map (fun storage =>
        { storage with calls := storage.calls ++
          (if answer = StandardButton.Yes then selected.map StorageCall.removeConstraints
           else []) })) ∧
    (self.constraints_storage_ = none →
      (self.deleteGoalsOnDBButtonClicked answer selected).constraints_storage_ = none) ∧
    (∀ name ∈ selected,
      (self.deleteGoalsOnDBButtonClicked answer selected).goal_poses_.find name = none) ∧
    (∀ name, name ∉ selected →
      (self.deleteGoalsOnDBButtonClicked answer selected).goal_poses_.find name =
        self.goal_poses_.find name) := by
  have hmap : (self.deleteGoalsOnDBButtonClicked answer selected).goal_poses_ =
      selected.foldl GoalPoseMap.erase self.goal_poses_ := by
    unfold MotionPlanningFrame.deleteGoalsOnDBButtonClicked
      MotionPlanningFrame.removeSelectedGoalsButtonClicked
    cases self.constraints_storage_ <;> cases answer <;> rfl
  refine ⟨?_, ?_, ?_, ?_⟩
  · unfold MotionPlanningFrame.deleteGoalsOnDBButtonClicked
      MotionPlanningFrame.removeSelectedGoalsButtonClicked
    cases hst : self.constraints_storage_ <;> cases answer <;> simp [hst]
  · intro hnone
    unfold MotionPlanningFrame.deleteGoalsOnDBButtonClicked
      MotionPlanningFrame.removeSelectedGoalsButtonClicked
    simp [hnone]
  · intro name hname
    rw [hmap, find_foldl_erase, if_pos hname]
  · intro name hname
    rw [hmap, find_foldl_erase, if_neg hname]

theorem digitsValue_cons (acc : Nat) (c : Char) (cs : List Char) :
    digitsValue acc (c :: cs) = digitsValue (10 * acc + (c.toNat - 48)) cs := rfl

theorem digitsValue_acc (l : List Char) :
    ∀ acc : Nat, digitsValue acc l = acc * 10 ^ l.length + digitsValue 0 l := by
  induction l with
  | nil => intro acc; show acc = acc * 10 ^ 0 + 0; omega
  | cons c cs ih =>
    intro acc
    rw [digitsValue_cons, digitsValue_cons, ih (10 * acc + (c.toNat - 48)),
      ih (10 * 0 + (c.toNat - 48)), List.length_cons]
    generalize c.toNat - 48 = d
    generalize digitsValue 0 cs = v
    ring

theorem digitChar_value (d : Nat) (h : d < 10) : (Nat.digitChar d).toNat - 48 = d := by
  interval_cases d <;> decide

theorem digitsValue_toDigitsCore (fuel : Nat) :
    ∀ (n : Nat) (ds : List Char), n < fuel →
      digitsValue 0 (Nat.toDigitsCore 10 fuel n ds) = n * 10 ^ ds.length + digitsValue 0 ds := by
  induction fuel with
  | zero => intro n ds h; omega
  | succ f ih =>
    intro n ds h
    unfold Nat.toDigitsCore
    have hd : (Nat.digitChar (n % 10)).toNat - 48 = n % 10 :=
      digitChar_value (n % 10) (Nat.mod_lt _ (by decide))
    have hsplit : 10 * (n / 10) + n % 10 = n := Nat.div_add_mod n 10
    by_cases hz : n / 10 = 0
    · simp only [hz, if_true]
      rw [digitsValue_cons, hd, digitsValue_acc ds (10 * 0 + n % 10)]
      have hn : n % 10 = n := by omega
      rw [hn]
      ring
    · simp only [hz, if_false]
      rw [ih (n / 10) _ (by omega), digitsValue_cons, hd,
        digitsValue_acc ds (10 * 0 + n % 10), List.length_cons]
      generalize digitsValue 0 ds = v
      generalize ds.length = k
      have key : n / 10 * 10 ^ (k + 1) + ((10 * 0 + n % 10) * 10 ^ k + v) =
          (10 * (n / 10) + n % 10) * 10 ^ k + v := by ring
      rw [key, hsplit]

theorem digitsValue_nil (acc : Nat) : digitsValue acc [] = acc := rfl

theorem digitsValue_pad4 (n : Nat) : digitsValue 0 (pad4 n) = n := by
  have hzero : 10 * 0 + ('0'.toNat - 48) = 0 := by decide
  have hz : ∀ (k : Nat) (l : List Char),
      digitsValue 0 (List.replicate k '0' ++ l) = digitsValue 0 l := by
    intro k
    induction k with
    | zero => intro l; rfl
    | succ k ih =>
      intro l
      rw [List.replicate_succ, List.cons_append, digitsValue_cons, hzero]
      exact ih l
  have hcore := digitsValue_toDigitsCore (n + 1) n [] (by omega)
  rw [digitsValue_nil, List.length_nil, Nat.pow_zero, Nat.mul_one, Nat.add_zero] at hcore
  unfold pad4
  rw [hz]
  exact hcore

theorem poseName_injective (scene : List Char) (a b : Nat)
    (h : poseName scene a = poseName scene b) : a = b := by
  unfold poseName at h
  have h2 : pad4 a = pad4 b := List.append_cancel_left h
  have := congrArg (digitsValue 0) h2
  rwa [digitsValue_pad4, digitsValue_pad4] at this

theorem modify_cons (e : List Char × GripperMarker) (rest : GoalPoseMap) (k : List Char)
    (change : GripperMarker → GripperMarker) :
    GoalPoseMap.modify (e :: rest) k change =
      (if e.1 = k then (e.1, change e.2) else e) :: GoalPoseMap.modify rest k change := rfl

theorem find_cons (e : List Char × GripperMarker) (rest : GoalPoseMap) (name : List Char) :
    GoalPoseMap.find (e :: rest) name =
      if e.1 = name then some e.2 else GoalPoseMap.find rest name := rfl

theorem find_modify (m : GoalPoseMap) (k : List Char) (change : GripperMarker → GripperMarker)
    (name : List Char) :
    GoalPoseMap.find (GoalPoseMap.modify m k change) name =
      (GoalPoseMap.find m name).map (fun v => if k = name then change v else v) := by
  induction m with
  | nil => rfl
  | cons e rest ih =>
    rw [modify_cons, find_cons, find_cons]
    by_cases hk : e.1 = k
    · rw [if_pos hk]
      by_cases hn : e.1 = name
      · have hkn : k = name := hk.symm.trans hn
        simp [hn, hkn]
      · simp only [hn, if_false]
        exact ih
    · rw [if_neg hk]
      by_cases hn : e.1 = name
      · have hkn : ¬ k = name := fun h => hk (hn.trans h.symm)
        simp [hn, hkn]
      · simp only [hn, if_false]
        exact ih

theorem length_modify (m : GoalPoseMap) (k : List Char)
    (change : GripperMarker → GripperMarker) :
    (GoalPoseMap.modify m k change).length = m.length := by
  simp [GoalPoseMap.modify]

theorem at_of_find (m : GoalPoseMap) (name : List Char) (v : GripperMarker)
    (h : m.find name = some v) : GoalPoseMap.at m name = (m, v) := by
  simp [GoalPoseMap.at, h]

theorem insert_of_find_none (m : GoalPoseMap) (k : List Char) (v : GripperMarker)
    (h : m.find k = none) : GoalPoseMap.insert m k v = m ++ [(k, v)] := by
  simp [GoalPoseMap.insert, h]

theorem copyGoalPose_hidden (display : PlanningDisplay) (scene : List Char)
    (self : MotionPlanningFrame) (name : List Char) (v : GripperMarker)
    (hfind : self.goal_poses_.find name = some v) (hvis : v.visible = false) :
    MotionPlanningFrame.copyGoalPose display scene self name = self := by
  unfold MotionPlanningFrame.copyGoalPose
  simp [at_of_find _ _ _ hfind, hvis]

theorem copyGoalPose_visible (display : PlanningDisplay) (scene : List Char)
    (self : MotionPlanningFrame) (name : List Char) (v : GripperMarker)
    (heef : display.active_end_effectors ≠ [])
    (hfind : self.goal_poses_.find name = some v) (hvis : v.visible = true)
    (hnew : self.goal_poses_.find (poseName scene self.goal_poses_.length) = none) :
    (MotionPlanningFrame.copyGoalPose display scene self name).goal_poses_ =
      GoalPoseMap.modify
        (self.goal_poses_ ++ [(poseName scene self.goal_poses_.length,
          { pose := v.pose, state := .NOT_TESTED, selected := true, visible := true })])
        name (fun marker => { marker with selected := !marker.selected }) ∧
    (MotionPlanningFrame.copyGoalPose display scene self name).constraints_storage_ =
      self.constraints_storage_ := by
  have hfind2 : GoalPoseMap.find (self.goal_poses_ ++ [(poseName scene self.goal_poses_.length,
      ({ pose := v.pose, state := .NOT_TESTED, selected := true, visible := true } :
        GripperMarker))]) name = some v := by
    rw [find_append_single, hfind]
  unfold MotionPlanningFrame.copyGoalPose MotionPlanningFrame.switchGoalPoseMarkerSelection
  simp only [at_of_find _ _ _ hfind, hvis, GoalPoseMap.size,
    insert_of_find_none _ _ _ hnew, at_of_find _ _ _ hfind2, heef, if_false,
    Bool.not_true, Bool.false_eq_true, and_self]

theorem copyGoalPose_invariant (display : PlanningDisplay) (scene : List Char)
    (before : GoalPoseMap) (self : MotionPlanningFrame) (copies : Nat) (name : List Char)
    (old : GripperMarker) (heef : display.active_end_effectors ≠ [])
    (hinv : CopyInvariant scene before self.goal_poses_ copies)
    (hname : before.find name = some old)
    (hfresh : old.visible = true →
      before.find (poseName scene (before.length + copies)) = none) :
    CopyInvariant scene before
      (MotionPlanningFrame.copyGoalPose display scene self name).goal_poses_
      (copies + if old.visible then 1 else 0) ∧
    (MotionPlanningFrame.copyGoalPose display scene self name).constraints_storage_ =
      self.constraints_storage_ := by
  obtain ⟨ha, hb, hc⟩ := hinv
  obtain ⟨v, hv, hpose, hvis⟩ := hb name old hname
  cases hold : old.visible
  · rw [copyGoalPose_hidden display scene self name v hv (by rw [hvis, hold])]
    exact ⟨⟨by simpa using ha, hb, by simpa using hc⟩, rfl⟩
  · have hnew : self.goal_poses_.find (poseName scene self.goal_poses_.length) = none := by
      cases hf : self.goal_poses_.find (poseName scene self.goal_poses_.length) with
      | none => rfl
      | some x =>
        exfalso
        rcases hc _ (by rw [hf]; rfl) with h | ⟨i, hi, h⟩
        · rw [ha, hfresh hold] at h
          simp at h
        · rw [ha] at h
          have := poseName_injective scene _ _ h
          omega
    obtain ⟨hmap, hstore⟩ :=
      copyGoalPose_visible display scene self name v heef hv (by rw [hvis, hold]) hnew
    rw [hmap]
    refine ⟨⟨?_, ?_, ?_⟩, hstore⟩
    · simp only [length_modify, List.length_append, List.length_cons, List.length_nil, ha]
      simp
      omega
    · intro key old2 hkey
      obtain ⟨v2, hv2, hp2, hvis2⟩ := hb key old2 hkey
      refine ⟨if name = key then { v2 with selected := !v2.selected } else v2, ?_, ?_, ?_⟩
      · rw [find_modify, find_append_single, hv2]
        rfl
      · by_cases hk : name = key <;> simp [hk, hp2]
      · by_cases hk : name = key <;> simp [hk, hvis2]
    · intro key hsome
      rw [find_modify, find_append_single] at hsome
      cases hfk : self.goal_poses_.find key with
      | some x =>
        rcases hc key (by rw [hfk]; rfl) with h | ⟨i, hi, h⟩
        · exact Or.inl h
        · exact Or.inr ⟨i, by simp; omega, h⟩
      | none =>
        rw [hfk] at hsome
        by_cases hk : poseName scene self.goal_poses_.length = key
        · exact Or.inr ⟨copies, by simp, by rw [← hk, ha]⟩
        · simp [hk] at hsome

theorem visibleSelected_cons (goals : GoalPoseMap) (name : List Char) (rest : List (List Char))
    (old : GripperMarker) (h : goals.find name = some old) :
    visibleSelected goals (name :: rest) =
      (if old.visible then 1 else 0) + visibleSelected goals rest := by
  unfold visibleSelected
  cases hv : old.visible
  · rw [List.filter_cons_of_neg (by simp [h, hv])]
    simp
  · rw [List.filter_cons_of_pos (by simp [h, hv])]
    simp
    omega

theorem copy_fold_invariant (display : PlanningDisplay) (scene : List Char)
    (before : GoalPoseMap) (heef : display.active_end_effectors ≠ []) :
    ∀ (sel : List (List Char)) (self : MotionPlanningFrame) (copies : Nat),
      CopyInvariant scene before self.goal_poses_ copies →
      (∀ name ∈ sel, (before.find name).isSome) →
      (∀ i, i < copies + visibleSelected before sel →
        before.find (poseName scene (before.length + i)) = none) →
      CopyInvariant scene before
        (sel.foldl (MotionPlanningFrame.copyGoalPose display scene) self).goal_poses_
        (copies + visibleSelected before sel) ∧
      (sel.foldl (MotionPlanningFrame.copyGoalPose display scene) self).constraints_storage_ =
        self.constraints_storage_ := by
  intro sel
  induction sel with
  | nil =>
    intro self copies hinv _ _
    exact ⟨by simpa [visibleSelected] using hinv, rfl⟩
  | cons name rest ih =>
    intro self copies hinv hsel hfresh
    obtain ⟨old, hold⟩ := Option.isSome_iff_exists.mp (hsel name (List.mem_cons_self _ _))
    have hcons := visibleSelected_cons before name rest old hold
    obtain ⟨hstep, hstore⟩ := copyGoalPose_invariant display scene before self copies name old
      heef hinv hold (by
        intro hv
        apply hfresh
        rw [hcons, hv]
        simp)
    obtain ⟨hfin, hstore2⟩ := ih (MotionPlanningFrame.copyGoalPose display scene self name)
      (copies + if old.visible then 1 else 0) hstep
      (fun n hn => hsel n (List.mem_cons_of_mem _ hn))
      (by
        intro i hi
        apply hfresh
        rw [hcons]
        omega)
    rw [List.foldl_cons]
    refine ⟨?_, by rw [hstore2, hstore]⟩
    have : copies + visibleSelected before (name :: rest) =
        copies + (if old.visible then 1 else 0) + visibleSelected before rest := by
      rw [hcons]; omega
    rw [this]
    exact hfin

/-- C23, as stated, fails: with no active end effector `copySelectedGoalPoses` returns at its
guard and copies nothing although the selected goal "a" is visible; and with the only goal
named "s_pose_0001" the name generated for its copy is that same name, so the insertion
keeps the old entry and the map does not grow. -/
theorem C23_counterexample :
    (visibleSelected twoGoalFrame.goal_poses_ [['a']] = 1 ∧
     (twoGoalFrame.copySelectedGoalPoses noEffectorDisplay [['a']]).goal_poses_.size ≠
       twoGoalFrame.goal_poses_.size + 1) ∧
    (visibleSelected shiftedFrame.goal_poses_ ["s_pose_0001".toList] = 1 ∧
     poseName ['s'] shiftedFrame.goal_poses_.size = "s_pose_0001".toList ∧
     (shiftedFrame.copySelectedGoalPoses readyDisplay ["s_pose_0001".toList]).goal_poses_.size ≠
       shiftedFrame.goal_poses_.size + 1) := by
  refine ⟨⟨by decide, by decide⟩, by decide, by decide, by decide⟩

/-- C23, amended: without a planning scene, without an active end effector or with an empty
selection `copySelectedGoalPoses` changes nothing. With a planning scene and an active end
effector, for every goal map and every selection of goals of the map, k of them visible, such
that none of the k names generated (scene name, "_pose_", and the sizes n, n+1, ..., n+k-1 on
four digits) is already a key: the number of goal poses after the call is the number before
plus k, every previously existing entry keeps its pose and its visibility, and the database
is untouched. -/
theorem C23_copy_selected (self : MotionPlanningFrame) (display : PlanningDisplay)
    (sel : List (List Char)) :
    ((display.scene_name = none ∨ display.active_end_effectors = [] ∨ sel = []) →
      self.copySelectedGoalPoses display sel = self) ∧
    (∀ scene, display.scene_name = some scene → display.active_end_effectors ≠ [] →
      (∀ name ∈ sel, (self.goal_poses_.find name).isSome) →
      (∀ i, i < visibleSelected self.goal_poses_ sel →
        self.goal_poses_.find (poseName scene (self.goal_poses_.size + i)) = none) →
      (self.copySelectedGoalPoses display sel).goal_poses_.size =
        self.goal_poses_.size + visibleSelected self.goal_poses_ sel ∧
      (∀ key old, self.goal_poses_.find key = some old →
        ∃ marker, (self.copySelectedGoalPoses display sel).goal_poses_.find key = some marker ∧
          marker.pose = old.pose ∧ marker.visible = old.visible) ∧
      (self.copySelectedGoalPoses display sel).constraints_storage_ =
        self.constraints_storage_) := by
  constructor
  · intro h
    unfold MotionPlanningFrame.copySelectedGoalPoses
    rcases h with h | h | h
    · by_cases hc : (sel = [] || display.active_end_effectors = []) = true
      · rw [if_pos hc]
      · rw [if_neg hc, h]
    · simp [h]
    · simp [h]
  · intro scene hscene heef hsel hfresh
    have hrun : self.copySelectedGoalPoses display sel =
        sel.foldl (MotionPlanningFrame.copyGoalPose display scene) self := by
      unfold MotionPlanningFrame.copySelectedGoalPoses
      by_cases hnil : sel = []
      · subst hnil; simp
      · simp [hnil, heef, hscene]
    have hstart : CopyInvariant scene self.goal_poses_ self.goal_poses_ 0 :=
      ⟨rfl, fun key old h => ⟨old, h, rfl, rfl⟩, fun key h => Or.inl h⟩
    obtain ⟨⟨ha, hb, _⟩, hstore⟩ := copy_fold_invariant display scene self.goal_poses_ heef sel
      self 0 hstart hsel (by
        intro i hi
        exact hfresh i (by omega))
    rw [hrun]
    refine ⟨?_, hb, hstore⟩
    simp only [GoalPoseMap.size]
    rw [ha]
    omega

/-- Witness for C23 as amended: the goals "a" and "b", both visible and selected, with the
scene "s": the copies are stored under "s_pose_0002" and "s_pose_0003". -/
theorem C23_copy_selected_witness :
    visibleSelected twoGoalFrame.goal_poses_ [['a'], ['b']] = 2 ∧
    (twoGoalFrame.copySelectedGoalPoses readyDisplay [['a'], ['b']]).goal_poses_.map
      (fun entry => entry.1) = [['a'], ['b'], "s_pose_0002".toList, "s_pose_0003".toList] ∧
    (twoGoalFrame.copySelectedGoalPoses readyDisplay [['a'], ['b']]).goal_poses_.size =
      twoGoalFrame.goal_poses_.size + visibleSelected twoGoalFrame.goal_poses_ [['a'], ['b']] :=
  ⟨by decide, by decide,
   ((C23_copy_selected twoGoalFrame readyDisplay [['a'], ['b']]).2 ['s'] rfl (by decide)
     (by decide) (by decide)).1⟩

/-- Witness for C22: with the goals "a" and "b" present, accepting the name "c" adds exactly
the key "c" and writes one constraint; accepting the name "a", accepting an empty name and
cancelling change nothing. -/
theorem C22_create_goal_pose_witness :
    ((twoGoalFrame.createGoalPoseButtonClicked readyDisplay
        (fun _ => (true, ['c']))).frame.goal_poses_.map (fun entry => entry.1) =
      [['a'], ['b'], ['c']] ∧
     (twoGoalFrame.createGoalPoseButtonClicked readyDisplay
        (fun _ => (true, ['c']))).frame.constraints_storage_ =
      some { calls := [StorageCall.addConstraints { name := ['c'], pose := { data := [5] } }] }) ∧
    (twoGoalFrame.createGoalPoseButtonClicked readyDisplay (fun _ => (true, ['a']))).frame =
      twoGoalFrame ∧
    (twoGoalFrame.createGoalPoseButtonClicked readyDisplay (fun _ => (true, []))).frame =
      twoGoalFrame ∧
    (twoGoalFrame.createGoalPoseButtonClicked readyDisplay (fun _ => (false, ['c']))).frame =
      twoGoalFrame ∧
    (twoGoalFrame.createGoalPoseButtonClicked readyDisplay (fun _ => (true, ['c']))).asked =
      some "s_pose_0002".toList :=
  ⟨⟨by decide, by decide⟩,
   (C22_create_goal_pose twoGoalFrame readyDisplay (fun _ => (true, ['a']))).2.2.1
     (by
       rintro ⟨proposed, _, _, _, h⟩
       have hfound : twoGoalFrame.goal_poses_.find ['a'] ≠ none := by decide
       exact hfound h),
   by decide, by decide, by decide⟩

/-- Witness for C24: with a database connected and the goal "a" selected, the answer Yes
issues one `removeConstraints`, the answer No issues none, and in both cases "a" is gone from
the map while "b" stays. -/
theorem C24_delete_goals_witness :
    (twoGoalFrame.deleteGoalsOnDBButtonClicked .Yes [['a']]).constraints_storage_ =
      some { calls := [StorageCall.removeConstraints ['a']] } ∧
    (twoGoalFrame.deleteGoalsOnDBButtonClicked .No [['a']]).constraints_storage_ = some {} ∧
    (twoGoalFrame.deleteGoalsOnDBButtonClicked .No [['a']]).goal_poses_.map
      (fun entry => entry.1) = [['b']] ∧
    (twoGoalFrame.deleteGoalsOnDBButtonClicked .No [['a']]).goal_poses_.find ['a'] = none :=
  ⟨by decide, by decide, by decide,
   (C24_delete_goals twoGoalFrame .No [['a']]).2.2.1 ['a'] (by decide)⟩

end PickPlace
